import Mathlib

/-!
# bodyshopfm: Are.na to tweet code node

A shallow embedding of `src/bodyshopfm.js`, the n8n code node that polls an
Are.na channel, picks the oldest block that was not processed yet, describes
it and composes one tweet.

Modelling conventions

* A JavaScript string is a `JsString`, the sequence of its UTF-16 code units,
  so `JsString.length` is the JavaScript `.length`, `substring(0, n)` keeps
  the first `n` code units (and may split a surrogate pair) and `===` is
  equality of the unit sequences. `js s` is the JavaScript string that has the
  characters of the Lean string `s`.
* An optional JSON field is an `Option`; `undefined` and `null` are `none`.
* The three HTTP services are answers recorded in a `World`; every function
  that may call one returns the list of calls it made next to its value.
* The workflow static data is passed in and returned explicitly.
-/

namespace BodyshopFM

/-! ## JavaScript values -/

/-- A JavaScript string: the sequence of its UTF-16 code units, each a number
below 65536. -/
structure JsString where
  units : List Nat
  deriving DecidableEq, Repr

/-- The UTF-16 code units of one character: the code point itself in the
basic plane, a surrogate pair above it. -/
def utf16 (c : Char) : List Nat :=
  if c.toNat < 0x10000 then [c.toNat]
  else [0xD800 + (c.toNat - 0x10000) / 0x400, 0xDC00 + (c.toNat - 0x10000) % 0x400]

/-- The JavaScript string that has the characters of the Lean string `s`. -/
def js (s : String) : JsString :=
  ⟨s.data.flatMap utf16⟩

/-- The property `s.length`: the number of code units. -/
def JsString.length (s : JsString) : Nat :=
  s.units.length

/-- The concatenation of two strings, as `+` and template literals do it. -/
def JsString.append (s t : JsString) : JsString :=
  ⟨s.units ++ t.units⟩

instance : Append JsString := ⟨JsString.append⟩

/-- The decimal numeral of `n`, which is what `String(n)` gives for a
non-negative safe integer. -/
def decimal (n : Nat) : JsString :=
  js (Nat.repr n)

/-- The value of `block.id`: Are.na sends a non-negative integer (a safe
integer, for which `String` gives the decimal numeral); a feed may also hand
the id over as a string. -/
inductive JsId where
  | num (n : Nat)
  | str (s : JsString)
  deriving DecidableEq, Repr

/-- The conversion `String(block.id)`, also used by the template literal. -/
def JsId.String : JsId → JsString
  | .num n => decimal n
  | .str s => s

/-- Truthiness of an optional string: `undefined`, `null` and `""` are falsy. -/
def truthy : Option JsString → Bool
  | some s => s != js ""
  | none => false

/-- The expression `a || b` for an optional string `a` and a string `b`. -/
def orElse (a : Option JsString) (b : JsString) : JsString :=
  match a with
  | some s => if s != js "" then s else b
  | none => b

/-- The call `s.substring(0, n)`. -/
def substring0 (s : JsString) (n : Nat) : JsString :=
  ⟨s.units.take n⟩

/-- White space and line terminators, the code units `trim` strips. -/
def isJsWhiteSpace (n : Nat) : Bool :=
  n = 0x09 || n = 0x0A || n = 0x0B || n = 0x0C || n = 0x0D || n = 0x20 || n = 0xA0 ||
  n = 0x1680 || (0x2000 ≤ n && n ≤ 0x200A) || n = 0x2028 || n = 0x2029 || n = 0x202F ||
  n = 0x205F || n = 0x3000 || n = 0xFEFF

/-- The call `s.trim()`. -/
def trim (s : JsString) : JsString :=
  ⟨((s.units.dropWhile isJsWhiteSpace).reverse.dropWhile isJsWhiteSpace).reverse⟩

/-! ## Blocks -/

/-- The object `block.image.original`. -/
structure ImageVersion where
  url : Option JsString
  deriving DecidableEq, Repr

/-- The object `block.image`. -/
structure Image where
  original : Option ImageVersion
  deriving DecidableEq, Repr

/-- The object `block.source`. -/
structure Source where
  url : Option JsString
  deriving DecidableEq, Repr

/-- One element of `responseData.contents`; `cls` is the field `class`. -/
structure Block where
  id : JsId
  cls : Option JsString
  title : Option JsString
  generated_title : Option JsString
  image : Option Image
  source : Option Source
  content : Option JsString
  deriving DecidableEq, Repr

/-- The chain `block.image && block.image.original && block.image.original.url`:
the url when every link of the chain is there and the url is truthy. -/
def Block.imageOriginalUrl (block : Block) : Option JsString :=
  match block.image with
  | some image =>
    match image.original with
    | some original => if truthy original.url then original.url else none
    | none => none
  | none => none

/-- The chain `block.source && block.source.url`. -/
def Block.sourceUrl (block : Block) : Option JsString :=
  match block.source with
  | some source => if truthy source.url then source.url else none
  | none => none

/-! ## Configuration and services -/

/-- The n8n environment `$env`. -/
structure Env where
  ARENA_TOKEN : Option JsString
  ARENA_CHANNEL_SLUG : Option JsString
  OPENAI_API_KEY : Option JsString
  SCREENSHOT_API_KEY : Option JsString

/-- The constant `OPENAI_API_KEY` of line 7. -/
def OPENAI_API_KEY (env : Env) : JsString :=
  orElse env.OPENAI_API_KEY (js "YOUR_OPENAI_API_KEY_HERE")

/-- The constant `SCREENSHOT_API_KEY` of line 8: `$env.SCREENSHOT_API_KEY || null`. -/
def SCREENSHOT_API_KEY (env : Env) : Option JsString :=
  if truthy env.SCREENSHOT_API_KEY then env.SCREENSHOT_API_KEY else none

/-- The answers of the outside world to `this.helpers.httpRequest`. An outer
`none` is a request that throws. For Are.na the answer is
`responseData.contents`, for OpenAI the string
`responseData.choices[0].message.content` (`none` when that path does not lead
to a string, which makes line 72 throw), for the screenshot service
`responseData.screenshot`. -/
structure World where
  arena : Option (Option (List Block))
  openai : (imageUrl prompt : JsString) → Option (Option JsString)
  screenshot : (webpageUrl : JsString) → Option (Option JsString)

/-- An HTTP request made during a run. -/
inductive Call where
  | arena
  | openai (imageUrl prompt : JsString)
  | screenshot (webpageUrl : JsString)
  deriving DecidableEq, Repr

/-- Whether a request goes to the caption service. -/
def Call.isOpenai : Call → Bool
  | .openai _ _ => true
  | _ => false

/-- Whether a request goes to the screenshot service. -/
def Call.isScreenshot : Call → Bool
  | .screenshot _ => true
  | _ => false

/-- The function `getArenaBlocks`. -/
def getArenaBlocks (w : World) : List Block × List Call :=
  match w.arena with
  | some (some contents) => (contents, [Call.arena])
  | some none => ([], [Call.arena])
  | none => ([], [Call.arena])

/-- The function `getOpenAIDescription`. -/
def getOpenAIDescription (env : Env) (w : World) (imageUrl prompt : JsString) :
    JsString × List Call :=
  if OPENAI_API_KEY env = js "" then
    ((js "AI description unavailable (no API key)."), [])
  else
    match w.openai imageUrl prompt with
    | some (some content) => (trim content, [Call.openai imageUrl prompt])
    | _ => ((js "AI description currently unavailable."), [Call.openai imageUrl prompt])

/-- The function `takeScreenshot`. -/
def takeScreenshot (env : Env) (w : World) (webpageUrl : JsString) :
    Option JsString × List Call :=
  match SCREENSHOT_API_KEY env with
  | none => (none, [])
  | some _ =>
    match w.screenshot webpageUrl with
    | some screenshot => (screenshot, [Call.screenshot webpageUrl])
    | none => (none, [Call.screenshot webpageUrl])

/-! ## Processed ids -/

/-- The constant `MAX_PROCESSED_IDS`. -/
def MAX_PROCESSED_IDS : Nat := 200

/-- Lines 13 to 22: the list a run works on. A missing entry of the static
data is the empty list; a list longer than `MAX_PROCESSED_IDS` is cut to
`slice(-MAX_PROCESSED_IDS)`. -/
def loadProcessedBlockIds (stored : Option (List JsString)) : List JsString :=
  let processedBlockIds := stored.getD []
  if processedBlockIds.length > MAX_PROCESSED_IDS then
    processedBlockIds.drop (processedBlockIds.length - MAX_PROCESSED_IDS)
  else
    processedBlockIds

/-- Lines 98 to 106: the first block of the reversed feed whose id is not in
the processed list. -/
def newBlockToProcess (arenaBlocks : List Block) (processedBlockIds : List JsString) :
    Option Block :=
  arenaBlocks.reverse.find? (fun block => !processedBlockIds.contains block.id.String)

/-! ## Description and tweet -/

/-- The prompt of line 124. -/
def imagePrompt : JsString :=
  (js "Short, engaging description for this image (for a tweet, under 150 chars). If it's a vehicle, try to ID make/model. The image will be attached.")

/-- The prompt of line 132. -/
def webpagePrompt : JsString :=
  (js "Concise summary of this webpage screenshot (for a tweet, 1-2 sentences). Mention products/brands if clear. Screenshot attached.")

/-- The variables set by lines 117 to 145. -/
structure Described where
  linkInText : JsString
  mediaUrlForTwitter : Option JsString
  aiDescription : JsString
  deriving DecidableEq, Repr

/-- The constant `arenaBlockUrl` of line 117. -/
def arenaBlockUrl (block : Block) : JsString :=
  (js "https://www.are.na/block/") ++ block.id.String

/-- The text branch, lines 141 and 142. -/
def textDescription (content : Option JsString) : JsString :=
  let aiDescription := orElse content (js "Text content.")
  if aiDescription.length > 150 then substring0 aiDescription 147 ++ js "..." else aiDescription

/-- Lines 117 to 145: the branch on the class of the block. -/
def describe (env : Env) (w : World) (block : Block) : Described × List Call :=
  match block.cls == some (js "Image"), block.imageOriginalUrl with
  | true, some url =>
    let r := getOpenAIDescription env w url imagePrompt
    (⟨arenaBlockUrl block, some url, r.1⟩, r.2)
  | _, _ =>
    match block.cls == some (js "Link"), block.sourceUrl with
    | true, some url =>
      if truthy (SCREENSHOT_API_KEY env) then
        let s := takeScreenshot env w url
        match s.1 with
        | some screenshotUrl =>
          if screenshotUrl != js "" then
            let r := getOpenAIDescription env w screenshotUrl webpagePrompt
            (⟨url, some screenshotUrl, r.1⟩, s.2 ++ r.2)
          else
            (⟨url, none, orElse block.generated_title (js "Interesting Link")⟩, s.2)
        | none => (⟨url, none, orElse block.generated_title (js "Interesting Link")⟩, s.2)
      else
        (⟨url, none, orElse block.generated_title (js "Web Link")⟩, [])
    | _, _ =>
      if block.cls == some (js "Text") then
        (⟨arenaBlockUrl block, none, textDescription block.content⟩, [])
      else
        (⟨arenaBlockUrl block, none, js "New content from Are.na."⟩, [])

/-- The constant `blockTitle` of line 116. -/
def blockTitle (block : Block) : JsString :=
  orElse block.title (js "Are.na Discovery")

/-- The constant `titlePrefix` of line 148. -/
def titlePrefix (blockTitle : JsString) : JsString :=
  if blockTitle != js "" then blockTitle ++ js ": " else (js "")

/-- The text of line 149, before the trim. -/
def untruncatedText (titlePrefix aiDescription linkInText : JsString) : JsString :=
  titlePrefix ++ aiDescription ++ js " " ++ linkInText

/-- Lines 149 to 152. -/
def tweetText (titlePrefix aiDescription linkInText : JsString) : JsString :=
  let tweetText := untruncatedText titlePrefix aiDescription linkInText
  if tweetText.length > 280 then substring0 tweetText 277 ++ js "..." else tweetText

/-! ## One run -/

/-- The `json` object of the returned item. -/
structure Output where
  tweet_text : JsString
  media_url : Option JsString
  deriving DecidableEq, Repr

/-- What a run leaves behind: the returned items, the processed ids in the
workflow static data, and the requests made. -/
structure RunResult where
  items : List Output
  processedBlockIds : List JsString
  calls : List Call

/-- The whole code node, started on the static data entry `stored`. -/
def run (env : Env) (w : World) (stored : Option (List JsString)) : RunResult :=
  let processedBlockIds := loadProcessedBlockIds stored
  let arenaBlocks := getArenaBlocks w
  match newBlockToProcess arenaBlocks.1 processedBlockIds with
  | none => ⟨[], processedBlockIds, arenaBlocks.2⟩
  | some block =>
    let d := describe env w block
    let text := tweetText (titlePrefix (blockTitle block)) d.1.aiDescription d.1.linkInText
    ⟨[⟨text, d.1.mediaUrlForTwitter⟩], processedBlockIds ++ [block.id.String],
      arenaBlocks.2 ++ d.2⟩

/-- The block a run selects. -/
def selected (w : World) (stored : Option (List JsString)) : Option Block :=
  newBlockToProcess (getArenaBlocks w).1 (loadProcessedBlockIds stored)

/-- Successive runs, one per world, each started on the static data the run
before it left; the result is the static data after the last run. -/
def runs (env : Env) : List World → Option (List JsString) → Option (List JsString)
  | [], stored => stored
  | w :: ws, stored => runs env ws (some (run env w stored).processedBlockIds)

/-- For each of the successive runs, the `String(id)` of the block it selects. -/
def selectedIds (env : Env) : List World → Option (List JsString) → List (Option JsString)
  | [], _ => []
  | w :: ws, stored =>
    (selected w stored).map (fun block => block.id.String)
      :: selectedIds env ws (some (run env w stored).processedBlockIds)

/-! ## Example data -/

/-- A block that has only an id and a class. -/
def bareBlock (id : JsId) (cls : JsString) : Block :=
  ⟨id, some cls, none, none, none, none, none⟩

/-- The feed of the end-to-end example: a link with id 3, an image with id 2
and a text with id 1, newest first. -/
def exampleFeed : List Block :=
  [ ⟨.num 3, some (js "Link"), some (js "A page"), none, none, some ⟨some (js "http://x")⟩, none⟩,
    ⟨.num 2, some (js "Image"), some (js "A car"), none, some ⟨some ⟨some (js "http://img/2.png")⟩⟩, none, none⟩,
    ⟨.num 1, some (js "Text"), none, none, none, none, some (js "hello")⟩ ]

/-- A world that serves `exampleFeed` and captions every image with `caption`. -/
def exampleWorld (caption : JsString) : World :=
  ⟨some (some exampleFeed), fun _ _ => some (some caption), fun _ => none⟩

/-- A store that holds the 200 ids `"0"` to `"199"`, oldest first. -/
def fullStore : List JsString :=
  (List.range 200).map decimal

/-- A world whose feed is the single text block with id `n`. -/
def singleBlockWorld (n : Nat) : World :=
  ⟨some (some [bareBlock (.num n) (js "Text")]), fun _ _ => none, fun _ => none⟩

/-- The feeds of 201 successive runs: run `k` finds the single new block `k`. -/
def manyWorlds : List World :=
  (List.range 201).map singleBlockWorld

/-- The ids `"0"` to `"200"`, in the order in which `manyWorlds` has them processed. -/
def manyIds : List JsString :=
  (List.range 201).map decimal

/-- A text block with id 7, the title `Note` and the given body. -/
def textBlock (content : Option JsString) : Block :=
  ⟨.num 7, some (js "Text"), some (js "Note"), none, none, none, content⟩

/-- A body of 200 characters. -/
def body200 : JsString :=
  ⟨List.replicate 200 97⟩

/-- The link block of `exampleFeed`: it has a title and no generated title. -/
def linkBlock : Block :=
  ⟨.num 3, some (js "Link"), some (js "A page"), none, none, some ⟨some (js "http://x")⟩, none⟩

/-- A link block that has a generated title and no title. -/
def untitledLinkBlock : Block :=
  ⟨.num 4, some (js "Link"), none, some (js "x.com"), none, some ⟨some (js "http://x")⟩, none⟩

/-- The image block of `exampleFeed`. -/
def imageBlock : Block :=
  ⟨.num 2, some (js "Image"), some (js "A car"), none, some ⟨some ⟨some (js "http://img/2.png")⟩⟩, none, none⟩

/-- An environment in which only the screenshot key is set. -/
def screenshotEnv : Env := ⟨none, none, none, some (js "key")⟩

/-- A world that serves `exampleFeed`, answers every screenshot request with
the reference `http://shot/1.png` and captions everything with `caption`. -/
def screenshotWorld (caption : JsString) : World :=
  ⟨some (some exampleFeed), fun _ _ => some (some caption),
    fun _ => some (some (js "http://shot/1.png"))⟩

/-- Reads a decimal numeral back; used to tell the ids of the examples apart. -/
def decodeDecimal (s : JsString) : Nat :=
  s.units.foldl (fun acc c => 10 * acc + (c - 48)) 0

/-- An environment with no variable set. -/
def emptyEnv : Env := ⟨none, none, none, none⟩

/-- A world that serves `exampleFeed` and whose caption and screenshot
requests all fail. -/
def failingCaptionWorld : World :=
  ⟨some (some exampleFeed), fun _ _ => none, fun _ => none⟩

/-- A world in which the Are.na request fails. -/
def downWorld : World :=
  ⟨none, fun _ _ => none, fun _ => none⟩

/-- A world whose feed lists the block with id 5 twice. -/
def repeatedFeedWorld : World :=
  ⟨some (some [bareBlock (.num 5) (js "Text"), bareBlock (.num 5) (js "Text")]),
    fun _ _ => none, fun _ => none⟩

/-- The text block of `exampleFeed`: it has no title. -/
def untitledBlock : Block :=
  ⟨.num 1, some (js "Text"), none, none, none, none, some (js "hello")⟩

/-- A title of 300 characters. -/
def title300 : JsString :=
  ⟨List.replicate 300 97⟩

/-- A text block with id 7, the body `hello` and a title of 300 characters. -/
def longTitleBlock : Block :=
  ⟨.num 7, some (js "Text"), some title300, none, none, none, some (js "hello")⟩

/-- A world whose feed is the single block `longTitleBlock`. -/
def longTitleWorld : World :=
  ⟨some (some [longTitleBlock]), fun _ _ => none, fun _ => none⟩

/-- A body of 161 code units: the letter `a` and 80 times the character
U+1F600, which takes two code units. -/
def emojiBody : JsString :=
  js ⟨'a' :: List.replicate 80 (Char.ofNat 0x1F600)⟩

/-- A body of 150 code units: 75 times the character U+1F600. -/
def emojiBody150 : JsString :=
  js ⟨List.replicate 75 (Char.ofNat 0x1F600)⟩

/-- A title of 400 code units: 200 times the character U+1F600. -/
def emojiTitle : JsString :=
  js ⟨List.replicate 200 (Char.ofNat 0x1F600)⟩

/-! ## Lemmas on strings -/

theorem JsString.units_append (s t : JsString) : (s ++ t).units = s.units ++ t.units :=
  rfl

theorem JsString.length_append (s t : JsString) : (s ++ t).length = s.length + t.length := by
  show (s.units ++ t.units).length = s.units.length + t.units.length
  exact List.length_append s.units t.units

theorem JsString.append_assoc (s t u : JsString) : s ++ t ++ u = s ++ (t ++ u) := by
  show (⟨(s.units ++ t.units) ++ u.units⟩ : JsString) = ⟨s.units ++ (t.units ++ u.units)⟩
  rw [List.append_assoc]

theorem Image_ne_Link : js "Image" ≠ js "Link" := by decide

theorem Image_ne_Text : js "Image" ≠ js "Text" := by decide

theorem Link_ne_Text : js "Link" ≠ js "Text" := by decide

theorem length_substring0 (s : JsString) (n : Nat) :
    (substring0 s n).length = min n s.length := by
  show (s.units.take n).length = min n s.units.length
  exact List.length_take n s.units

theorem length_substring0_of_le (s : JsString) (n : Nat) (h : n ≤ s.length) :
    (substring0 s n).length = n := by
  rw [length_substring0]; exact Nat.min_eq_left h

/-! ## The composed text -/

theorem tweetText_of_long (p d l : JsString) (h : (untruncatedText p d l).length > 280) :
    tweetText p d l = substring0 (untruncatedText p d l) 277 ++ js "..." := by
  unfold tweetText
  exact if_pos h

theorem tweetText_of_short (p d l : JsString) (h : (untruncatedText p d l).length ≤ 280) :
    tweetText p d l = untruncatedText p d l := by
  unfold tweetText
  exact if_neg (by omega)

theorem length_append_dots (s : JsString) : (s ++ js "...").length = s.length + 3 := by
  rw [JsString.length_append]
  rfl

/-- C1: the composed tweet text has at most 280 characters; an untruncated
text `prefix + description + " " + link` longer than 280 characters becomes
its first 277 characters followed by `...`, which is exactly 280 characters,
and a text of at most 280 characters is returned unchanged. A character is a
UTF-16 code unit, which is what `.length` and `substring` count. -/
theorem tweetText_at_most_280 (titlePrefix aiDescription linkInText : JsString) :
    untruncatedText titlePrefix aiDescription linkInText
        = titlePrefix ++ aiDescription ++ js " " ++ linkInText ∧
    (tweetText titlePrefix aiDescription linkInText).length ≤ 280 ∧
    ((untruncatedText titlePrefix aiDescription linkInText).length > 280 →
      tweetText titlePrefix aiDescription linkInText
          = substring0 (untruncatedText titlePrefix aiDescription linkInText) 277 ++ js "..." ∧
        (substring0 (untruncatedText titlePrefix aiDescription linkInText) 277).length = 277 ∧
        (tweetText titlePrefix aiDescription linkInText).length = 280) ∧
    ((untruncatedText titlePrefix aiDescription linkInText).length ≤ 280 →
      tweetText titlePrefix aiDescription linkInText
          = untruncatedText titlePrefix aiDescription linkInText) := by
  have long : (untruncatedText titlePrefix aiDescription linkInText).length > 280 →
      tweetText titlePrefix aiDescription linkInText
          = substring0 (untruncatedText titlePrefix aiDescription linkInText) 277 ++ js "..." ∧
        (substring0 (untruncatedText titlePrefix aiDescription linkInText) 277).length = 277 ∧
        (tweetText titlePrefix aiDescription linkInText).length = 280 := by
    intro h
    have h277 := length_substring0_of_le
      (untruncatedText titlePrefix aiDescription linkInText) 277 (by omega)
    refine ⟨tweetText_of_long _ _ _ h, h277, ?_⟩
    rw [tweetText_of_long _ _ _ h, length_append_dots, h277]
  refine ⟨rfl, ?_, long, tweetText_of_short _ _ _⟩
  by_cases h : (untruncatedText titlePrefix aiDescription linkInText).length > 280
  · exact Nat.le_of_eq (long h).2.2
  · rw [tweetText_of_short _ _ _ (by omega)]
    omega

set_option maxRecDepth 100000 in
/-- C1 at a title of 200 characters outside the basic plane: the text has 416
code units and is cut to 277 code units and `...`, 280 in all. -/
theorem tweetText_at_most_280_witness :
    (untruncatedText (titlePrefix emojiTitle) (js "hello") (js "http://x")).length = 416 ∧
    tweetText (titlePrefix emojiTitle) (js "hello") (js "http://x")
      = substring0 (untruncatedText (titlePrefix emojiTitle) (js "hello") (js "http://x")) 277
          ++ js "..." ∧
    (tweetText (titlePrefix emojiTitle) (js "hello") (js "http://x")).length = 280 :=
  ⟨by decide,
    ((tweetText_at_most_280 (titlePrefix emojiTitle) (js "hello") (js "http://x")).2.2.1
      (by decide)).1,
    ((tweetText_at_most_280 (titlePrefix emojiTitle) (js "hello") (js "http://x")).2.2.1
      (by decide)).2.2⟩

/-! ## Selection -/

theorem newBlockToProcess_eq_none_iff (arenaBlocks : List Block) (processed : List JsString) :
    newBlockToProcess arenaBlocks processed = none
      ↔ ∀ x ∈ arenaBlocks, x.id.String ∈ processed := by
  simp [newBlockToProcess]

theorem newBlockToProcess_eq_some_iff (arenaBlocks : List Block) (processed : List JsString)
    (b : Block) :
    newBlockToProcess arenaBlocks processed = some b
      ↔ b.id.String ∉ processed ∧ ∃ newer older, arenaBlocks = newer ++ b :: older ∧
          ∀ x ∈ older, x.id.String ∈ processed := by
  unfold newBlockToProcess
  rw [List.find?_eq_some]
  constructor
  · rintro ⟨hb, as, bs, hrev, has⟩
    refine ⟨by simpa using hb, bs.reverse, as.reverse, ?_, ?_⟩
    · have := congrArg List.reverse hrev
      simpa using this
    · intro x hx
      have := has x (List.mem_reverse.mp hx)
      simpa using this
  · rintro ⟨hb, newer, older, rfl, hold⟩
    refine ⟨by simpa using hb, older.reverse, newer.reverse, by simp, ?_⟩
    intro x hx
    have := hold x (List.mem_reverse.mp hx)
    simpa using this

theorem run_of_selected_none (env : Env) (w : World) (stored : Option (List JsString))
    (h : selected w stored = none) :
    run env w stored = ⟨[], loadProcessedBlockIds stored, (getArenaBlocks w).2⟩ := by
  unfold selected at h
  unfold run
  simp only [h]

theorem run_of_selected_some (env : Env) (w : World) (stored : Option (List JsString))
    (block : Block) (h : selected w stored = some block) :
    run env w stored =
      ⟨[⟨tweetText (titlePrefix (blockTitle block)) (describe env w block).1.aiDescription
            (describe env w block).1.linkInText, (describe env w block).1.mediaUrlForTwitter⟩],
        loadProcessedBlockIds stored ++ [block.id.String],
        (getArenaBlocks w).2 ++ (describe env w block).2⟩ := by
  unfold selected at h
  unfold run
  simp only [h]

theorem run_items_eq_nil_iff (env : Env) (w : World) (stored : Option (List JsString)) :
    (run env w stored).items = [] ↔ selected w stored = none := by
  cases h : selected w stored with
  | none => simp [run_of_selected_none env w stored h]
  | some block => simp [run_of_selected_some env w stored block h]

/-- C2: the selection loop returns the block closest to the end of the
fetched sequence whose `String(id)` is not in the processed list, so every
block after it is processed; it returns no block, and the run returns the
empty result, exactly when every fetched id is in the processed list. Fetched
`[C, B, A]` with `A` and `C` processed selects `B`, and the feed with ids 3, 2, 1
and processed list `["1"]` selects the block with id 2. -/
theorem newBlockToProcess_oldest_unprocessed :
    (∀ (arenaBlocks : List Block) (processedBlockIds : List JsString) (b : Block),
      newBlockToProcess arenaBlocks processedBlockIds = some b
        ↔ b.id.String ∉ processedBlockIds ∧ ∃ newer older, arenaBlocks = newer ++ b :: older ∧
            ∀ x ∈ older, x.id.String ∈ processedBlockIds) ∧
    (∀ (arenaBlocks : List Block) (processedBlockIds : List JsString),
      newBlockToProcess arenaBlocks processedBlockIds = none
        ↔ ∀ x ∈ arenaBlocks, x.id.String ∈ processedBlockIds) ∧
    (∀ (env : Env) (w : World) (stored : Option (List JsString)),
      (run env w stored).items = []
        ↔ ∀ x ∈ (getArenaBlocks w).1, x.id.String ∈ loadProcessedBlockIds stored) ∧
    (∀ (A B C : Block) (processedBlockIds : List JsString),
      A.id.String ∈ processedBlockIds → C.id.String ∈ processedBlockIds →
      B.id.String ∉ processedBlockIds →
      newBlockToProcess [C, B, A] processedBlockIds = some B) ∧
    (newBlockToProcess exampleFeed [js "1"]).map Block.id = some (JsId.num 2) := by
  refine ⟨newBlockToProcess_eq_some_iff, newBlockToProcess_eq_none_iff, ?_, ?_, by decide⟩
  · intro env w stored
    rw [run_items_eq_nil_iff]
    exact newBlockToProcess_eq_none_iff _ _
  · intro A B C processed hA _ hB
    rw [newBlockToProcess_eq_some_iff]
    refine ⟨hB, [C], [A], rfl, ?_⟩
    intro x hx
    rw [List.mem_singleton] at hx
    rw [hx]
    exact hA

/-! ## The processed ids across a run -/

theorem length_loadProcessedBlockIds (stored : Option (List JsString)) :
    (loadProcessedBlockIds stored).length ≤ MAX_PROCESSED_IDS := by
  unfold loadProcessedBlockIds
  by_cases h : (stored.getD []).length > MAX_PROCESSED_IDS
  · simp only [h, if_true, List.length_drop]
    omega
  · simp only [h, if_false]
    omega

theorem loadProcessedBlockIds_of_le (l : List JsString) (h : l.length ≤ MAX_PROCESSED_IDS) :
    loadProcessedBlockIds (some l) = l := by
  unfold loadProcessedBlockIds
  have h' : ¬ ((some l).getD []).length > MAX_PROCESSED_IDS := by
    simpa using h
  simp only [h', if_false]
  rfl

theorem mem_loadProcessedBlockIds_append (l : List JsString) (i : JsString) :
    i ∈ loadProcessedBlockIds (some (l ++ [i])) := by
  unfold loadProcessedBlockIds
  by_cases h : ((some (l ++ [i])).getD []).length > MAX_PROCESSED_IDS
  · simp only [h, if_true]
    have hlen : (l ++ [i]).length - MAX_PROCESSED_IDS ≤ l.length := by
      simp [MAX_PROCESSED_IDS]
    show i ∈ List.drop ((l ++ [i]).length - MAX_PROCESSED_IDS) (l ++ [i])
    rw [List.drop_append_of_le_length hlen]
    simp
  · simp only [h, if_false]
    show i ∈ l ++ [i]
    simp

theorem selected_not_mem (w : World) (stored : Option (List JsString)) (b : Block)
    (h : selected w stored = some b) : b.id.String ∉ loadProcessedBlockIds stored :=
  ((newBlockToProcess_eq_some_iff _ _ _).mp h).1

set_option maxRecDepth 100000 in
theorem selected_fullStore :
    selected (singleBlockWorld 200) (some fullStore) = some (bareBlock (.num 200) (js "Text")) := by
  decide!

/-- C3, as the code has it: the list a run works on holds at most
`MAX_PROCESSED_IDS` = 200 ids, because a longer stored list is cut to its last
200 when it is loaded; the push at the end of a run evicts nothing, so a run
that selects a block persists one id more than it loaded, and the persisted
list holds at most 201 ids (at most 200 when no block was selected). -/
theorem persisted_length_le_succ_max (env : Env) (w : World) (stored : Option (List JsString)) :
    (loadProcessedBlockIds stored).length ≤ MAX_PROCESSED_IDS ∧
    (run env w stored).processedBlockIds.length ≤ MAX_PROCESSED_IDS + 1 ∧
    (∀ b, selected w stored = some b →
      (run env w stored).processedBlockIds = loadProcessedBlockIds stored ++ [b.id.String] ∧
      (run env w stored).processedBlockIds.length = (loadProcessedBlockIds stored).length + 1) ∧
    (selected w stored = none →
      (run env w stored).processedBlockIds = loadProcessedBlockIds stored ∧
      (run env w stored).processedBlockIds.length ≤ MAX_PROCESSED_IDS) := by
  have hload := length_loadProcessedBlockIds stored
  refine ⟨hload, ?_, ?_, ?_⟩
  · cases h : selected w stored with
    | none =>
      rw [run_of_selected_none env w stored h]
      exact Nat.le_succ_of_le hload
    | some b =>
      rw [run_of_selected_some env w stored b h]
      simpa using hload
  · intro b h
    rw [run_of_selected_some env w stored b h]
    simp
  · intro h
    rw [run_of_selected_none env w stored h]
    exact ⟨rfl, hload⟩

/-- C3 fails as stated: started on the store of the 200 ids `"0"` to `"199"`
with a feed that holds the new block 200, the run persists 201 ids. -/
theorem persisted_length_exceeds_max :
    fullStore.length ≤ 200 ∧
    (run emptyEnv (singleBlockWorld 200) (some fullStore)).processedBlockIds
      = fullStore ++ [js "200"] ∧
    ¬ (run emptyEnv (singleBlockWorld 200) (some fullStore)).processedBlockIds.length
        ≤ MAX_PROCESSED_IDS := by
  have hlen : fullStore.length = 200 := by simp [fullStore]
  have hload : loadProcessedBlockIds (some fullStore) = fullStore :=
    loadProcessedBlockIds_of_le fullStore (by rw [hlen]; decide)
  rw [run_of_selected_some emptyEnv _ _ _ selected_fullStore, hload]
  refine ⟨by omega, rfl, ?_⟩
  simp [hlen, MAX_PROCESSED_IDS]

/-- C5: when a run selects a block with id `i`, `String(i)` is in the list
that run persists, and the next run, started on that list with any feed, does
not select a block whose `String(id)` equals `String(i)`. -/
theorem selected_id_not_selected_again (env : Env) (w : World)
    (stored : Option (List JsString)) (b : Block) (h : selected w stored = some b) :
    (∃ out, (run env w stored).items = [out]) ∧
    b.id.String ∈ (run env w stored).processedBlockIds ∧
    ∀ (w' : World) (b' : Block),
      selected w' (some (run env w stored).processedBlockIds) = some b' →
        b'.id.String ≠ b.id.String := by
  rw [run_of_selected_some env w stored b h]
  refine ⟨⟨_, rfl⟩, by simp, ?_⟩
  intro w' b' h' heq
  have hnot := selected_not_mem w' _ b' h'
  rw [heq] at hnot
  exact hnot (mem_loadProcessedBlockIds_append _ _)

/-- C5 at the example feed: block 2 is selected on the store `["1"]`. -/
theorem selected_id_not_selected_again_witness :
    selected (exampleWorld (js "a car")) (some [js "1"]) = some imageBlock ∧
    ((∃ out, (run emptyEnv (exampleWorld (js "a car")) (some [js "1"])).items = [out]) ∧
      imageBlock.id.String
        ∈ (run emptyEnv (exampleWorld (js "a car")) (some [js "1"])).processedBlockIds ∧
      ∀ (w' : World) (b' : Block),
        selected w' (some (run emptyEnv (exampleWorld (js "a car")) (some [js "1"])).processedBlockIds)
            = some b' →
          b'.id.String ≠ imageBlock.id.String) :=
  ⟨by decide, selected_id_not_selected_again emptyEnv (exampleWorld (js "a car")) (some [js "1"])
    imageBlock (by decide)⟩

/-! ## Successive runs -/

theorem drop_append_drop (n m : Nat) (xs ys : List JsString) (h : n ≤ m + ys.length) :
    List.drop ((List.drop (xs.length - m) xs ++ ys).length - n) (List.drop (xs.length - m) xs ++ ys)
      = List.drop ((xs ++ ys).length - n) (xs ++ ys) := by
  have hsplit : (xs ++ ys).length - n
      = (xs.length - m) + ((List.drop (xs.length - m) xs ++ ys).length - n) := by
    simp only [List.length_append, List.length_drop]
    omega
  have hle : xs.length - m ≤ xs.length := Nat.sub_le _ _
  rw [hsplit, ← List.drop_drop, List.drop_append_of_le_length hle]

theorem loadProcessedBlockIds_eq_drop (stored : Option (List JsString)) :
    loadProcessedBlockIds stored
      = List.drop ((stored.getD []).length - MAX_PROCESSED_IDS) (stored.getD []) := by
  unfold loadProcessedBlockIds
  by_cases h : (stored.getD []).length > MAX_PROCESSED_IDS
  · simp only [h, if_true]
  · simp only [h, if_false]
    have : (stored.getD []).length - MAX_PROCESSED_IDS = 0 := by omega
    rw [this]
    rfl

theorem runs_eq_drop (env : Env) (ws : List World) :
    ∀ (w : World) (stored : Option (List JsString)) (ids : List JsString),
      selectedIds env (w :: ws) stored = ids.map some →
      runs env (w :: ws) stored
        = some (List.drop ((stored.getD [] ++ ids).length - (MAX_PROCESSED_IDS + 1))
            (stored.getD [] ++ ids)) := by
  induction ws with
  | nil =>
    intro w stored ids h
    cases ids with
    | nil => simp [selectedIds] at h
    | cons i rest =>
      cases rest with
      | cons j rest2 => simp [selectedIds] at h
      | nil =>
        simp only [selectedIds, List.map_cons, List.map_nil, List.cons.injEq, and_true] at h
        obtain ⟨b, hb, hi⟩ := Option.map_eq_some'.mp h
        simp only [runs, run_of_selected_some env w stored b hb, hi]
        rw [loadProcessedBlockIds_eq_drop,
          ← drop_append_drop (MAX_PROCESSED_IDS + 1) MAX_PROCESSED_IDS _ [i] (by simp)]
        have hlen : (List.drop ((stored.getD []).length - MAX_PROCESSED_IDS) (stored.getD [])
            ++ [i]).length - (MAX_PROCESSED_IDS + 1) = 0 := by
          simp only [List.length_append, List.length_drop, List.length_singleton]
          omega
        rw [hlen]
        rfl
  | cons w' ws ih =>
    intro w stored ids h
    cases ids with
    | nil => simp [selectedIds] at h
    | cons i rest =>
      rw [selectedIds, List.map_cons, List.cons.injEq] at h
      obtain ⟨b, hb, hi⟩ := Option.map_eq_some'.mp h.1
      have hrest := h.2
      rw [run_of_selected_some env w stored b hb, hi] at hrest
      rw [runs, run_of_selected_some env w stored b hb, hi]
      rw [ih w' _ rest hrest]
      simp only [Option.getD_some]
      rw [loadProcessedBlockIds_eq_drop, List.append_assoc,
        drop_append_drop (MAX_PROCESSED_IDS + 1) MAX_PROCESSED_IDS _ ([i] ++ rest) (by simp)]
      rfl

set_option maxRecDepth 100000 in
theorem decodeDecimal_repr : ∀ n, n < 201 → decodeDecimal (decimal n) = n := by
  decide!

theorem repr_eq_imp_eq (a b : Nat) (ha : a < 201) (hb : b < 201)
    (h : decimal a = decimal b) : a = b := by
  rw [← decodeDecimal_repr a ha, ← decodeDecimal_repr b hb, h]

theorem nodup_manyIds : manyIds.Nodup := by
  unfold manyIds
  refine List.Nodup.map_on ?_ (List.nodup_range 201)
  intro x hx y hy h
  exact repr_eq_imp_eq x y (List.mem_range.mp hx) (List.mem_range.mp hy) h

theorem mem_of_mem_loadProcessedBlockIds (l : List JsString) (i : JsString)
    (h : i ∈ loadProcessedBlockIds (some l)) : i ∈ l := by
  rw [loadProcessedBlockIds_eq_drop] at h
  exact List.mem_of_mem_drop h

theorem selected_singleBlockWorld (n : Nat) (l : List JsString) (h : decimal n ∉ l) :
    selected (singleBlockWorld n) (some l) = some (bareBlock (.num n) (js "Text")) := by
  unfold selected
  rw [newBlockToProcess_eq_some_iff]
  refine ⟨fun hmem => h (mem_of_mem_loadProcessedBlockIds l _ hmem), [], [], rfl, ?_⟩
  intro x hx
  cases hx

theorem selectedIds_singleBlockWorlds (env : Env) (ns : List Nat) :
    ∀ (l : List JsString), (ns.map decimal).Nodup → (∀ n ∈ ns, decimal n ∉ l) →
      selectedIds env (ns.map singleBlockWorld) (some l) = (ns.map decimal).map some := by
  induction ns with
  | nil => intro l _ _; rfl
  | cons n rest ih =>
    intro l hnodup hnew
    have hsel := selected_singleBlockWorld n l (hnew n (List.mem_cons_self n rest))
    rw [List.map_cons, List.nodup_cons] at hnodup
    simp only [List.map_cons, selectedIds, hsel, Option.map_some',
      run_of_selected_some env _ _ _ hsel]
    rw [ih _ hnodup.2]
    · rfl
    · intro m hm hmem
      rcases List.mem_append.mp hmem with h | h
      · exact hnew m (List.mem_cons_of_mem n hm) (mem_of_mem_loadProcessedBlockIds l _ h)
      · rw [List.mem_singleton] at h
        have h' : decimal m = decimal n := h
        exact hnodup.1 (h' ▸ List.mem_map_of_mem decimal hm)

theorem selectedIds_manyWorlds (env : Env) :
    selectedIds env manyWorlds (some []) = manyIds.map some :=
  selectedIds_singleBlockWorlds env (List.range 201) [] nodup_manyIds (fun _ _ h => nomatch h)

theorem length_manyIds : manyIds.length = 201 := by
  simp [manyIds]

theorem runs_from_empty (env : Env) (ws : List World) (ids : List JsString)
    (hne : ids ≠ []) (hsel : selectedIds env ws (some []) = ids.map some) :
    runs env ws (some []) = some (ids.drop (ids.length - 201)) := by
  cases ws with
  | nil =>
    cases ids with
    | nil => exact absurd rfl hne
    | cons i rest => simp [selectedIds] at hsel
  | cons w ws =>
    have h := runs_eq_drop env ws w (some []) ids hsel
    have hmax : MAX_PROCESSED_IDS + 1 = 201 := rfl
    rw [hmax] at h
    simpa using h

theorem loadProcessedBlockIds_drop_201 (ids : List JsString) (hn : ids.length > 200) :
    loadProcessedBlockIds (some (ids.drop (ids.length - 201)))
      = ids.drop (ids.length - 200) := by
  have hmax : MAX_PROCESSED_IDS = 200 := rfl
  rw [loadProcessedBlockIds_eq_drop, hmax]
  simp only [Option.getD_some, List.length_drop, List.drop_drop]
  have hk : ids.length - 201 + (ids.length - (ids.length - 201) - 200) = ids.length - 200 := by
    omega
  rw [hk]

theorem run_of_empty (env : Env) (w : World) (stored : Option (List JsString))
    (hempty : stored.getD [] = []) : run env w stored = run env w (some []) := by
  cases stored with
  | none => rfl
  | some l =>
    have : l = [] := hempty
    rw [this]

theorem selected_of_empty (w : World) (stored : Option (List JsString))
    (hempty : stored.getD [] = []) : selected w stored = selected w (some []) := by
  cases stored with
  | none => rfl
  | some l =>
    have : l = [] := hempty
    rw [this]

/-- C4, as the code has it: starting from an empty store (no entry yet, or an
empty list), after `n > 200` successive runs that each process one new id, all
ids distinct, the persisted list is the 201 most recently processed ids in
processing order, because the push at the end of a run evicts nothing; the cut
to the 200 most recent ids happens when the next run loads the list. -/
theorem persisted_after_runs_last_201 (env : Env) (ws : List World) (ids : List JsString)
    (stored : Option (List JsString)) (hempty : stored.getD [] = [])
    (hn : ids.length > 200) (hdistinct : ids.Nodup)
    (hsel : selectedIds env ws stored = ids.map some) :
    runs env ws stored = some (ids.drop (ids.length - 201)) ∧
    (ids.drop (ids.length - 201)).length = 201 ∧
    loadProcessedBlockIds (runs env ws stored) = ids.drop (ids.length - 200) := by
  have _ := hdistinct
  have hne : ids ≠ [] := by
    intro h
    rw [h] at hn
    exact absurd hn (by decide)
  have hruns : runs env ws stored = runs env ws (some []) := by
    cases ws with
    | nil =>
      cases ids with
      | nil => exact absurd rfl hne
      | cons i rest => simp [selectedIds] at hsel
    | cons w ws => simp only [runs, run_of_empty env w stored hempty]
  have hsel' : selectedIds env ws (some []) = ids.map some := by
    cases ws with
    | nil => exact hsel
    | cons w ws =>
      rw [← hsel]
      simp only [selectedIds, run_of_empty env w stored hempty,
        selected_of_empty w stored hempty]
  have h := runs_from_empty env ws ids hne hsel'
  rw [hruns]
  refine ⟨h, ?_, ?_⟩
  · rw [List.length_drop]
    omega
  · rw [h]
    exact loadProcessedBlockIds_drop_201 ids hn

/-- C4 at 201 runs on a fresh workflow: run `k` finds the new block `k`, for
`k` from 0 to 200. -/
theorem persisted_after_runs_last_201_witness :
    runs emptyEnv manyWorlds none = some (manyIds.drop (manyIds.length - 201)) ∧
    (manyIds.drop (manyIds.length - 201)).length = 201 ∧
    loadProcessedBlockIds (runs emptyEnv manyWorlds none)
      = manyIds.drop (manyIds.length - 200) :=
  persisted_after_runs_last_201 emptyEnv manyWorlds manyIds none rfl
    (by rw [length_manyIds]; decide) nodup_manyIds (selectedIds_manyWorlds emptyEnv)

/-- C4 fails as stated: after the 201 runs of `manyWorlds`, which process the
distinct ids `"0"` to `"200"` starting from an empty store, the persisted list
still holds all 201 ids and is not the list of the 200 most recent ones. -/
theorem persisted_after_runs_not_last_200 :
    manyIds.length > 200 ∧ manyIds.Nodup ∧
    selectedIds emptyEnv manyWorlds (some []) = manyIds.map some ∧
    runs emptyEnv manyWorlds (some []) = some manyIds ∧
    runs emptyEnv manyWorlds (some []) ≠ some (manyIds.drop (manyIds.length - 200)) := by
  have hne : manyIds ≠ [] := by
    intro h
    have := length_manyIds
    rw [h] at this
    exact absurd this (by decide)
  have hruns : runs emptyEnv manyWorlds (some []) = some manyIds := by
    rw [runs_from_empty emptyEnv manyWorlds manyIds hne (selectedIds_manyWorlds emptyEnv),
      length_manyIds]
    rfl
  refine ⟨by rw [length_manyIds]; decide, nodup_manyIds, selectedIds_manyWorlds emptyEnv,
    hruns, ?_⟩
  rw [hruns]
  intro h
  have hlen := congrArg List.length (Option.some.inj h)
  rw [List.length_drop, length_manyIds] at hlen
  omega

/-! ## The text branch -/

theorem describe_text (env : Env) (w : World) (block : Block) (hcls : block.cls = some (js "Text")) :
    describe env w block = (⟨arenaBlockUrl block, none, textDescription block.content⟩, []) := by
  unfold describe
  simp [hcls, Image_ne_Text.symm, Link_ne_Text.symm]

theorem orElse_of_ne (s b : JsString) (h : s ≠ js "") : orElse (some s) b = s := by
  simp [orElse, h]

theorem ne_empty_of_length_pos (s : JsString) (h : 0 < s.length) : s ≠ js "" := by
  intro he
  rw [he] at h
  exact absurd h (by decide)

/-- C6: for a block of class Text whose content is longer than 150 characters
the description is the first 147 characters of the content followed by `...`,
which makes exactly 150 characters. A character is a UTF-16 code unit, which
is what `.length` and `substring` count. -/
theorem text_description_truncated (env : Env) (w : World) (block : Block) (content : JsString)
    (hcls : block.cls = some (js "Text")) (hcontent : block.content = some content)
    (hlong : content.length > 150) :
    (describe env w block).1.aiDescription = substring0 content 147 ++ js "..." ∧
    (substring0 content 147).length = 147 ∧
    (describe env w block).1.aiDescription.length = 150 := by
  have hne : content ≠ js "" := ne_empty_of_length_pos content (by omega)
  have h147 := length_substring0_of_le content 147 (by omega)
  have hdesc : (describe env w block).1.aiDescription = substring0 content 147 ++ js "..." := by
    rw [describe_text env w block hcls, hcontent]
    show textDescription (some content) = _
    unfold textDescription
    rw [orElse_of_ne content _ hne]
    exact if_pos hlong
  refine ⟨hdesc, h147, ?_⟩
  rw [hdesc, length_append_dots, h147]

theorem length_body200 : body200.length = 200 := by
  show (List.replicate 200 97).length = 200
  exact List.length_replicate 200 97

set_option maxRecDepth 100000 in
/-- C6 at a body of 200 characters, whose description has 150 characters, and
at the body of the letter `a` and 80 characters outside the basic plane, which
has 161 code units and is cut to 147 code units and `...`. -/
theorem text_description_truncated_witness :
    body200.length = 200 ∧
    ((describe emptyEnv (exampleWorld (js "a car")) (textBlock (some body200))).1.aiDescription
        = substring0 body200 147 ++ js "..." ∧
      (substring0 body200 147).length = 147 ∧
      (describe emptyEnv (exampleWorld (js "a car"))
        (textBlock (some body200))).1.aiDescription.length = 150) ∧
    emojiBody.length = 161 ∧
    ((describe emptyEnv (exampleWorld (js "a car")) (textBlock (some emojiBody))).1.aiDescription
        = substring0 emojiBody 147 ++ js "..." ∧
      (substring0 emojiBody 147).length = 147 ∧
      (describe emptyEnv (exampleWorld (js "a car"))
        (textBlock (some emojiBody))).1.aiDescription.length = 150) :=
  ⟨length_body200, text_description_truncated emptyEnv (exampleWorld (js "a car"))
    (textBlock (some body200)) body200 rfl rfl (by rw [length_body200]; decide),
    by decide, text_description_truncated emptyEnv (exampleWorld (js "a car"))
    (textBlock (some emojiBody)) emojiBody rfl rfl (by decide)⟩

/-- C7, as the code has it: for a block of class Text whose content is not
empty and has at most 150 characters (UTF-16 code units, as `.length` counts
them) the description is the content unchanged; for an empty or missing
content the description is the fixed text `Text content.`. -/
theorem text_description_short (env : Env) (w : World) (block : Block)
    (hcls : block.cls = some (js "Text")) :
    (∀ content, block.content = some content → content ≠ js "" → content.length ≤ 150 →
      (describe env w block).1.aiDescription = content) ∧
    (block.content = none ∨ block.content = some (js "") →
      (describe env w block).1.aiDescription = js "Text content.") := by
  rw [describe_text env w block hcls]
  constructor
  · intro content hcontent hne hshort
    rw [hcontent]
    show textDescription (some content) = _
    unfold textDescription
    rw [orElse_of_ne content _ hne]
    exact if_neg (by omega)
  · intro h
    rcases h with h | h <;> rw [h] <;> rfl

set_option maxRecDepth 100000 in
/-- C7 at the body `hello`, at a missing body, and at a body of 75 characters
outside the basic plane, which has exactly 150 code units and is kept. -/
theorem text_description_short_witness :
    (textBlock (some (js "hello"))).cls = some (js "Text") ∧
    (describe emptyEnv (exampleWorld (js "a car"))
      (textBlock (some (js "hello")))).1.aiDescription = js "hello" ∧
    (describe emptyEnv (exampleWorld (js "a car")) (textBlock none)).1.aiDescription
      = js "Text content." ∧
    emojiBody150.length = 150 ∧
    (describe emptyEnv (exampleWorld (js "a car"))
      (textBlock (some emojiBody150))).1.aiDescription = emojiBody150 :=
  ⟨rfl,
    (text_description_short emptyEnv (exampleWorld (js "a car"))
      (textBlock (some (js "hello"))) rfl).1 (js "hello") rfl (by decide) (by decide),
    (text_description_short emptyEnv (exampleWorld (js "a car")) (textBlock none) rfl).2
      (Or.inl rfl),
    by decide,
    (text_description_short emptyEnv (exampleWorld (js "a car"))
      (textBlock (some emojiBody150)) rfl).1 emojiBody150 rfl (by decide) (by decide)⟩

/-- C7 fails as stated: a text block with the empty body, and one with no
body, get the description `Text content.`, not their body. -/
theorem text_description_empty_body :
    (textBlock (some (js ""))).cls = some (js "Text") ∧
    (describe emptyEnv (exampleWorld (js "a car")) (textBlock (some (js "")))).1.aiDescription
      = js "Text content." ∧
    (describe emptyEnv (exampleWorld (js "a car")) (textBlock (some (js "")))).1.aiDescription ≠ js "" ∧
    (describe emptyEnv (exampleWorld (js "a car")) (textBlock none)).1.aiDescription
      = js "Text content." := by
  decide

/-! ## The link branch -/

theorem describe_link_no_key (env : Env) (w : World) (block : Block) (url : JsString)
    (hcls : block.cls = some (js "Link")) (hurl : block.sourceUrl = some url)
    (hkey : truthy env.SCREENSHOT_API_KEY = false) :
    describe env w block = (⟨url, none, orElse block.generated_title (js "Web Link")⟩, []) := by
  have hk : SCREENSHOT_API_KEY env = none := by
    simp [SCREENSHOT_API_KEY, hkey]
  unfold describe
  simp [hcls, hurl, hk, truthy, Image_ne_Link.symm]

theorem takeScreenshot_no_key (env : Env) (w : World) (url : JsString)
    (hkey : truthy env.SCREENSHOT_API_KEY = false) : takeScreenshot env w url = (none, []) := by
  have hk : SCREENSHOT_API_KEY env = none := by
    simp [SCREENSHOT_API_KEY, hkey]
  unfold takeScreenshot
  rw [hk]

theorem truthy_SCREENSHOT_API_KEY (env : Env) (hkey : truthy env.SCREENSHOT_API_KEY = true) :
    SCREENSHOT_API_KEY env = env.SCREENSHOT_API_KEY ∧ truthy (SCREENSHOT_API_KEY env) = true := by
  simp [SCREENSHOT_API_KEY, hkey]

theorem takeScreenshot_key (env : Env) (w : World) (url : JsString)
    (hkey : truthy env.SCREENSHOT_API_KEY = true) :
    takeScreenshot env w url
      = ((w.screenshot url).getD none, [Call.screenshot url]) := by
  have hk := (truthy_SCREENSHOT_API_KEY env hkey).1
  unfold takeScreenshot
  rw [hk]
  cases henv : env.SCREENSHOT_API_KEY with
  | none => rw [henv] at hkey; exact absurd hkey (by decide)
  | some k => cases w.screenshot url <;> rfl

theorem describe_link_shot (env : Env) (w : World) (block : Block) (url s : JsString)
    (hcls : block.cls = some (js "Link")) (hurl : block.sourceUrl = some url)
    (hkey : truthy env.SCREENSHOT_API_KEY = true)
    (hshot : (takeScreenshot env w url).1 = some s) (hs : s ≠ js "") :
    describe env w block
      = (⟨url, some s, (getOpenAIDescription env w s webpagePrompt).1⟩,
          (takeScreenshot env w url).2 ++ (getOpenAIDescription env w s webpagePrompt).2) := by
  have hk := (truthy_SCREENSHOT_API_KEY env hkey).2
  unfold describe
  simp [hcls, hurl, hk, hshot, hs, Image_ne_Link.symm]

theorem describe_link_no_shot (env : Env) (w : World) (block : Block) (url : JsString)
    (hcls : block.cls = some (js "Link")) (hurl : block.sourceUrl = some url)
    (hkey : truthy env.SCREENSHOT_API_KEY = true)
    (hshot : truthy (takeScreenshot env w url).1 = false) :
    describe env w block
      = (⟨url, none, orElse block.generated_title (js "Interesting Link")⟩,
          (takeScreenshot env w url).2) := by
  have hk := (truthy_SCREENSHOT_API_KEY env hkey).2
  unfold describe
  cases h : (takeScreenshot env w url).1 with
  | none => simp [hcls, hurl, hk, h, Image_ne_Link.symm]
  | some s =>
    rw [h] at hshot
    have hs : s = js "" := by simpa [truthy] using hshot
    simp [hcls, hurl, hk, h, hs, Image_ne_Link.symm]

theorem getArenaBlocks_calls (w : World) : (getArenaBlocks w).2 = [Call.arena] := by
  unfold getArenaBlocks
  rcases w.arena with _ | _ | _ <;> rfl

theorem orElse_of_falsy (a : Option JsString) (b : JsString) (h : a = none ∨ a = some (js "")) :
    orElse a b = b := by
  rcases h with h | h <;> rw [h] <;> rfl

/-- C8, as the code has it: for a block of class Link with a source url, when
the screenshot key is not configured, the description is the field
`generated_title` of the block when that is present and not empty and `Web Link`
otherwise (the field `title` plays no part), the media url is null, and the
run calls neither the screenshot service nor the caption service. -/
theorem link_description_without_key (env : Env) (w : World) (block : Block) (url : JsString)
    (hcls : block.cls = some (js "Link")) (hurl : block.sourceUrl = some url)
    (hkey : truthy env.SCREENSHOT_API_KEY = false) :
    (∀ g, block.generated_title = some g → g ≠ js "" →
      (describe env w block).1.aiDescription = g) ∧
    (block.generated_title = none ∨ block.generated_title = some (js "") →
      (describe env w block).1.aiDescription = js "Web Link") ∧
    (describe env w block).1.mediaUrlForTwitter = none ∧
    (describe env w block).2 = [] ∧
    takeScreenshot env w url = (none, []) ∧
    (∀ stored, selected w stored = some block →
      (∃ text, (run env w stored).items = [⟨text, none⟩]) ∧
      (run env w stored).calls = [Call.arena]) := by
  have hd := describe_link_no_key env w block url hcls hurl hkey
  refine ⟨?_, ?_, ?_, ?_, takeScreenshot_no_key env w url hkey, ?_⟩
  · intro g hg hne
    rw [hd, hg]
    exact orElse_of_ne g _ hne
  · intro h
    rw [hd]
    exact orElse_of_falsy _ _ h
  · rw [hd]
  · rw [hd]
  · intro stored hsel
    rw [run_of_selected_some env w stored block hsel, hd, getArenaBlocks_calls]
    exact ⟨⟨_, rfl⟩, rfl⟩

/-- C8 at a link block with the generated title `x.com` and at one without. -/
theorem link_description_without_key_witness :
    (describe emptyEnv (exampleWorld (js "a car")) untitledLinkBlock).1.aiDescription = js "x.com" ∧
    (describe emptyEnv (exampleWorld (js "a car")) linkBlock).1.aiDescription = js "Web Link" ∧
    (describe emptyEnv (exampleWorld (js "a car")) linkBlock).1.mediaUrlForTwitter = none ∧
    (run emptyEnv (exampleWorld (js "a car")) (some [js "1", js "2"])).calls = [Call.arena] :=
  ⟨(link_description_without_key emptyEnv (exampleWorld (js "a car")) untitledLinkBlock (js "http://x")
      rfl rfl rfl).1 (js "x.com") rfl (by decide),
    (link_description_without_key emptyEnv (exampleWorld (js "a car")) linkBlock (js "http://x")
      rfl rfl rfl).2.1 (Or.inl rfl),
    (link_description_without_key emptyEnv (exampleWorld (js "a car")) linkBlock (js "http://x")
      rfl rfl rfl).2.2.1,
    ((link_description_without_key emptyEnv (exampleWorld (js "a car")) linkBlock (js "http://x")
      rfl rfl rfl).2.2.2.2.2 (some [js "1", js "2"]) (by decide)).2⟩

/-- C8 fails as stated: without a screenshot key, the link block with the
title `A page` and no generated title is described as `Web Link`, not by its
title, and the link block with no title and the generated title `x.com` is
described as `x.com`, not as `Web Link`. -/
theorem title_ignored_without_key :
    truthy emptyEnv.SCREENSHOT_API_KEY = false ∧
    linkBlock.cls = some (js "Link") ∧ linkBlock.sourceUrl = some (js "http://x") ∧
    linkBlock.title = some (js "A page") ∧
    (describe emptyEnv (exampleWorld (js "a car")) linkBlock).1.aiDescription = js "Web Link" ∧
    (describe emptyEnv (exampleWorld (js "a car")) linkBlock).1.aiDescription ≠ js "A page" ∧
    untitledLinkBlock.cls = some (js "Link") ∧ untitledLinkBlock.sourceUrl = some (js "http://x") ∧
    untitledLinkBlock.title = none ∧
    (describe emptyEnv (exampleWorld (js "a car")) untitledLinkBlock).1.aiDescription = js "x.com" ∧
    (describe emptyEnv (exampleWorld (js "a car")) untitledLinkBlock).1.aiDescription
      ≠ js "Web Link" := by
  decide

theorem isOpenai_takeScreenshot (env : Env) (w : World) (url : JsString) :
    ∀ c ∈ (takeScreenshot env w url).2, c.isOpenai = false := by
  unfold takeScreenshot
  intro c hc
  cases hk : SCREENSHOT_API_KEY env with
  | none =>
    rw [hk] at hc
    cases hc
  | some k =>
    rw [hk] at hc
    cases hw : w.screenshot url <;> simp only [hw, List.mem_singleton] at hc <;> rw [hc] <;> rfl

/-- C9, as the code has it: for a block of class Link with a source url, when
the screenshot key is configured: if the capture returns a screenshot
reference `s`, the media url of the output is `s` and the description is what
`getOpenAIDescription` returns for `s` and the webpage prompt; if the request
fails or the answer carries no screenshot, the capture returns null, the media
url of the output is null, the caption service is not called, and the
description is the field `generated_title` of the block when that is present
and not empty and `Interesting Link` otherwise (the field `title` plays no
part). -/
theorem link_description_with_key (env : Env) (w : World) (block : Block) (url : JsString)
    (hcls : block.cls = some (js "Link")) (hurl : block.sourceUrl = some url)
    (hkey : truthy env.SCREENSHOT_API_KEY = true) :
    (∀ s, (takeScreenshot env w url).1 = some s → s ≠ js "" →
      (describe env w block).1.mediaUrlForTwitter = some s ∧
      (describe env w block).1.aiDescription
        = (getOpenAIDescription env w s webpagePrompt).1 ∧
      (∀ stored, selected w stored = some block →
        (run env w stored).items
          = [⟨tweetText (titlePrefix (blockTitle block))
                (getOpenAIDescription env w s webpagePrompt).1 url, some s⟩])) ∧
    (w.screenshot url = none ∨ w.screenshot url = some none →
      (takeScreenshot env w url).1 = none ∧
      (describe env w block).1.mediaUrlForTwitter = none ∧
      (∀ c ∈ (describe env w block).2, c.isOpenai = false) ∧
      (∀ g, block.generated_title = some g → g ≠ js "" →
        (describe env w block).1.aiDescription = g) ∧
      (block.generated_title = none ∨ block.generated_title = some (js "") →
        (describe env w block).1.aiDescription = js "Interesting Link") ∧
      (∀ stored, selected w stored = some block →
        (run env w stored).items
          = [⟨tweetText (titlePrefix (blockTitle block))
                (orElse block.generated_title (js "Interesting Link")) url, none⟩] ∧
        (run env w stored).calls = [Call.arena, Call.screenshot url] ∧
        (∀ c ∈ (run env w stored).calls, c.isOpenai = false))) := by
  constructor
  · intro s hshot hs
    have hd := describe_link_shot env w block url s hcls hurl hkey hshot hs
    refine ⟨by rw [hd], by rw [hd], ?_⟩
    intro stored hsel
    rw [run_of_selected_some env w stored block hsel, hd]
  · intro hw
    have hnone : (takeScreenshot env w url).1 = none := by
      rw [takeScreenshot_key env w url hkey]
      rcases hw with h | h <;> rw [h] <;> rfl
    have hcalls : (takeScreenshot env w url).2 = [Call.screenshot url] := by
      rw [takeScreenshot_key env w url hkey]
    have hd := describe_link_no_shot env w block url hcls hurl hkey (by rw [hnone]; rfl)
    refine ⟨hnone, by rw [hd], ?_, ?_, ?_, ?_⟩
    · rw [hd]
      exact isOpenai_takeScreenshot env w url
    · intro g hg hne
      rw [hd, hg]
      exact orElse_of_ne g _ hne
    · intro h
      rw [hd]
      exact orElse_of_falsy _ _ h
    · intro stored hsel
      rw [run_of_selected_some env w stored block hsel, hd, getArenaBlocks_calls, hcalls]
      refine ⟨rfl, rfl, ?_⟩
      intro c hc
      rcases List.mem_append.mp hc with h | h <;> rw [List.mem_singleton] at h <;> rw [h] <;> rfl

set_option maxRecDepth 100000 in
/-- C9 at the example feed on the store `["1", "2"]`, where the run selects
the link block: with a world that returns the screenshot `http://shot/1.png`
the record carries that reference and the caption, and with a world whose
screenshot request fails the record has no media url. -/
theorem link_description_with_key_witness :
    selected (screenshotWorld (js "a page")) (some [js "1", js "2"]) = some linkBlock ∧
    (run screenshotEnv (screenshotWorld (js "a page")) (some [js "1", js "2"])).items
      = [⟨js "A page: a page http://x", some (js "http://shot/1.png")⟩] ∧
    (run screenshotEnv (exampleWorld (js "a car")) (some [js "1", js "2"])).items
      = [⟨js "A page: Interesting Link http://x", none⟩] ∧
    (run screenshotEnv (exampleWorld (js "a car")) (some [js "1", js "2"])).calls
      = [Call.arena, Call.screenshot (js "http://x")] ∧
    (describe screenshotEnv (exampleWorld (js "a car")) untitledLinkBlock).1.aiDescription
      = js "x.com" :=
  ⟨by decide,
    (((link_description_with_key screenshotEnv (screenshotWorld (js "a page")) linkBlock
      (js "http://x") rfl rfl rfl).1 (js "http://shot/1.png") rfl (by decide)).2.2
        (some [js "1", js "2"]) (by decide)).trans (by decide),
    ((((link_description_with_key screenshotEnv (exampleWorld (js "a car")) linkBlock
      (js "http://x") rfl rfl rfl).2 (Or.inl rfl)).2.2.2.2.2
        (some [js "1", js "2"]) (by decide)).1).trans (by decide),
    (((link_description_with_key screenshotEnv (exampleWorld (js "a car")) linkBlock
      (js "http://x") rfl rfl rfl).2 (Or.inl rfl)).2.2.2.2.2
        (some [js "1", js "2"]) (by decide)).2.1,
    ((link_description_with_key screenshotEnv (exampleWorld (js "a car")) untitledLinkBlock
      (js "http://x") rfl rfl rfl).2 (Or.inl rfl)).2.2.2.1 (js "x.com") rfl (by decide)⟩

set_option maxRecDepth 100000 in
/-- C9 fails as stated: with a screenshot key and a failing screenshot
request, the run that selects the link block with the title `A page` and no
generated title returns a record whose description is `Interesting Link`, not
the title, and the link block with no title and the generated title `x.com`
is described as `x.com`. -/
theorem title_ignored_with_key :
    truthy screenshotEnv.SCREENSHOT_API_KEY = true ∧
    (exampleWorld (js "a car")).screenshot (js "http://x") = none ∧
    linkBlock.cls = some (js "Link") ∧ linkBlock.sourceUrl = some (js "http://x") ∧
    linkBlock.title = some (js "A page") ∧
    selected (exampleWorld (js "a car")) (some [js "1", js "2"]) = some linkBlock ∧
    (run screenshotEnv (exampleWorld (js "a car")) (some [js "1", js "2"])).items
      = [⟨js "A page: Interesting Link http://x", none⟩] ∧
    (describe screenshotEnv (exampleWorld (js "a car")) linkBlock).1.aiDescription
      = js "Interesting Link" ∧
    (describe screenshotEnv (exampleWorld (js "a car")) linkBlock).1.aiDescription
      ≠ js "A page" ∧
    untitledLinkBlock.title = none ∧
    (describe screenshotEnv (exampleWorld (js "a car")) untitledLinkBlock).1.aiDescription
      = js "x.com" ∧
    (describe screenshotEnv (exampleWorld (js "a car")) untitledLinkBlock).1.aiDescription
      ≠ js "Interesting Link" := by
  decide

/-! ## The image branch -/

theorem describe_image (env : Env) (w : World) (block : Block) (u : JsString)
    (hcls : block.cls = some (js "Image")) (hurl : block.imageOriginalUrl = some u) :
    describe env w block
      = (⟨arenaBlockUrl block, some u, (getOpenAIDescription env w u imagePrompt).1⟩,
          (getOpenAIDescription env w u imagePrompt).2) := by
  unfold describe
  simp [hcls, hurl]

/-- C10: for a block of class Image with an original image url `u` the media
url of the output is `u` and the description put into the text is what
`getOpenAIDescription` returns for `u` and the image prompt. -/
theorem image_description (env : Env) (w : World) (block : Block) (u : JsString)
    (hcls : block.cls = some (js "Image")) (hurl : block.imageOriginalUrl = some u) :
    (describe env w block).1.mediaUrlForTwitter = some u ∧
    (describe env w block).1.aiDescription = (getOpenAIDescription env w u imagePrompt).1 ∧
    (∀ stored, selected w stored = some block →
      (run env w stored).items
        = [⟨tweetText (titlePrefix (blockTitle block))
              (getOpenAIDescription env w u imagePrompt).1 (arenaBlockUrl block), some u⟩]) := by
  have hd := describe_image env w block u hcls hurl
  refine ⟨by rw [hd], by rw [hd], ?_⟩
  intro stored hsel
  rw [run_of_selected_some env w stored block hsel, hd]

/-- C10 at the example feed: with the ids 3 (Link), 2 (Image), 1 and the
processed list `["1"]` the run selects block 2 and returns one record with the
image url as media url and a text made of the title prefix, the caption and
the block link. -/
theorem image_description_witness :
    selected (exampleWorld (js "a red car")) (some [js "1"]) = some imageBlock ∧
    (getOpenAIDescription emptyEnv (exampleWorld (js "a red car"))
      (js "http://img/2.png") imagePrompt).1 = js "a red car" ∧
    (run emptyEnv (exampleWorld (js "a red car")) (some [js "1"])).items
      = [⟨js "A car: a red car https://www.are.na/block/2", some (js "http://img/2.png")⟩] ∧
    ((describe emptyEnv (exampleWorld (js "a red car")) imageBlock).1.mediaUrlForTwitter
        = some (js "http://img/2.png") ∧
      (describe emptyEnv (exampleWorld (js "a red car")) imageBlock).1.aiDescription
        = (getOpenAIDescription emptyEnv (exampleWorld (js "a red car"))
            (js "http://img/2.png") imagePrompt).1 ∧
      (∀ stored, selected (exampleWorld (js "a red car")) stored = some imageBlock →
        (run emptyEnv (exampleWorld (js "a red car")) stored).items
          = [⟨tweetText (titlePrefix (blockTitle imageBlock))
                (getOpenAIDescription emptyEnv (exampleWorld (js "a red car"))
                  (js "http://img/2.png") imagePrompt).1 (arenaBlockUrl imageBlock),
              some (js "http://img/2.png")⟩])) :=
  ⟨by decide, by decide, by decide,
    image_description emptyEnv (exampleWorld (js "a red car")) imageBlock (js "http://img/2.png") rfl rfl⟩

/-! ## The caption service -/

theorem OPENAI_API_KEY_ne_empty (env : Env) : OPENAI_API_KEY env ≠ js "" := by
  unfold OPENAI_API_KEY orElse
  cases env.OPENAI_API_KEY with
  | none => decide
  | some s =>
    by_cases h : s = js ""
    · simp only [h, bne_self_eq_false, Bool.false_eq_true, if_false]
      decide
    · simp [h]

theorem getOpenAIDescription_eq (env : Env) (w : World) (imageUrl prompt : JsString) :
    getOpenAIDescription env w imageUrl prompt
      = (match w.openai imageUrl prompt with
          | some (some content) => (trim content, [Call.openai imageUrl prompt])
          | _ => ((js "AI description currently unavailable."), [Call.openai imageUrl prompt])) := by
  unfold getOpenAIDescription
  exact if_neg (OPENAI_API_KEY_ne_empty env)

theorem getOpenAIDescription_calls (env : Env) (w : World) (imageUrl prompt : JsString) :
    (getOpenAIDescription env w imageUrl prompt).2 = [Call.openai imageUrl prompt] := by
  rw [getOpenAIDescription_eq]
  rcases w.openai imageUrl prompt with _ | _ | _ <;> rfl

theorem getOpenAIDescription_of_failure (env : Env) (w : World) (imageUrl prompt : JsString)
    (h : w.openai imageUrl prompt = none ∨ w.openai imageUrl prompt = some none) :
    (getOpenAIDescription env w imageUrl prompt).1 = js "AI description currently unavailable." := by
  rw [getOpenAIDescription_eq]
  rcases h with h | h <;> rw [h]

/-- C11 does not hold on the code: with no `OPENAI_API_KEY` in the
environment the constant of line 7 is the placeholder
`YOUR_OPENAI_API_KEY_HERE`, which is truthy, so the guard of line 45 never
fires for any environment: the request to the caption service is always made,
and the text returned is the answer of the service or, when the request
fails, `AI description currently unavailable.`, not the text for a missing
key. -/
theorem caption_requested_without_key (w : World) (imageUrl prompt : JsString) :
    emptyEnv.OPENAI_API_KEY = none ∧
    OPENAI_API_KEY emptyEnv = js "YOUR_OPENAI_API_KEY_HERE" ∧
    (∀ env : Env, OPENAI_API_KEY env ≠ js "") ∧
    (getOpenAIDescription emptyEnv w imageUrl prompt).2 = [Call.openai imageUrl prompt] ∧
    (w.openai imageUrl prompt = none →
      (getOpenAIDescription emptyEnv w imageUrl prompt).1
        = js "AI description currently unavailable.") ∧
    getOpenAIDescription emptyEnv failingCaptionWorld (js "http://img/2.png") imagePrompt
      = ((js "AI description currently unavailable."),
          [Call.openai (js "http://img/2.png") imagePrompt]) ∧
    (run emptyEnv failingCaptionWorld (some [js "1"])).calls
      = [Call.arena, Call.openai (js "http://img/2.png") imagePrompt] :=
  ⟨rfl, rfl, OPENAI_API_KEY_ne_empty, getOpenAIDescription_calls emptyEnv w imageUrl prompt,
    fun h => getOpenAIDescription_of_failure emptyEnv w imageUrl prompt (Or.inl h),
    by decide, by decide⟩

/-- C12: when the request to the caption service fails, or its answer has no
usable `choices[0].message.content`, `getOpenAIDescription` returns
`AI description currently unavailable.`; a run that selected an image block
then still returns exactly one record, with the image url as media url and a
text built from that fallback description, and records the id of the block. -/
theorem caption_failure_falls_back (env : Env) (w : World) (block : Block) (u : JsString)
    (stored : Option (List JsString))
    (hcls : block.cls = some (js "Image")) (hurl : block.imageOriginalUrl = some u)
    (hfail : w.openai u imagePrompt = none ∨ w.openai u imagePrompt = some none)
    (hsel : selected w stored = some block) :
    (∀ imageUrl prompt,
      w.openai imageUrl prompt = none ∨ w.openai imageUrl prompt = some none →
      (getOpenAIDescription env w imageUrl prompt).1
        = js "AI description currently unavailable.") ∧
    (run env w stored).items
      = [⟨tweetText (titlePrefix (blockTitle block)) (js "AI description currently unavailable.")
            (arenaBlockUrl block), some u⟩] ∧
    untruncatedText (titlePrefix (blockTitle block)) (js "AI description currently unavailable.")
        (arenaBlockUrl block)
      = titlePrefix (blockTitle block) ++ js "AI description currently unavailable." ++ js " "
          ++ arenaBlockUrl block ∧
    (run env w stored).processedBlockIds = loadProcessedBlockIds stored ++ [block.id.String] ∧
    block.id.String ∈ (run env w stored).processedBlockIds := by
  have hd := describe_image env w block u hcls hurl
  have hcap := getOpenAIDescription_of_failure env w u imagePrompt hfail
  rw [run_of_selected_some env w stored block hsel, hd, hcap]
  exact ⟨fun imageUrl prompt h => getOpenAIDescription_of_failure env w imageUrl prompt h,
    rfl, rfl, rfl, by simp⟩

set_option maxRecDepth 100000 in
/-- C12 at the example feed with a failing caption request: block 2 is
selected on the store `["1"]` and the record carries the fallback text. -/
theorem caption_failure_falls_back_witness :
    (run emptyEnv failingCaptionWorld (some [js "1"])).items
      = [⟨js "A car: AI description currently unavailable. https://www.are.na/block/2",
          some (js "http://img/2.png")⟩] ∧
    (run emptyEnv failingCaptionWorld (some [js "1"])).processedBlockIds = [js "1", js "2"] :=
  ⟨(caption_failure_falls_back emptyEnv failingCaptionWorld imageBlock (js "http://img/2.png")
      (some [js "1"]) rfl rfl (Or.inl rfl) (by decide)).2.1,
    (caption_failure_falls_back emptyEnv failingCaptionWorld imageBlock (js "http://img/2.png")
      (some [js "1"]) rfl rfl (Or.inl rfl) (by decide)).2.2.2.1⟩

/-! ## A run without blocks -/

theorem getArenaBlocks_of_no_contents (w : World)
    (h : w.arena = none ∨ w.arena = some none ∨ w.arena = some (some [])) :
    (getArenaBlocks w).1 = [] := by
  unfold getArenaBlocks
  rcases h with h | h | h <;> rw [h]

theorem selected_of_no_contents (w : World) (stored : Option (List JsString))
    (h : w.arena = none ∨ w.arena = some none ∨ w.arena = some (some [])) :
    selected w stored = none := by
  unfold selected
  rw [getArenaBlocks_of_no_contents w h]
  rfl

theorem loadProcessedBlockIds_some (l : List JsString) :
    loadProcessedBlockIds (some l) = l.drop (l.length - MAX_PROCESSED_IDS) := by
  rw [loadProcessedBlockIds_eq_drop]
  rfl

/-- C13, as the code has it: when the Are.na request fails, or its answer has
no contents or an empty list, the run returns the empty result, makes no other
request and adds no id; the list it leaves in the static data is the stored
list as loaded, that is the stored list itself when it holds at most 200 ids
and its last 200 ids when it holds more. -/
theorem run_without_blocks (env : Env) (w : World) (stored : Option (List JsString))
    (h : w.arena = none ∨ w.arena = some none ∨ w.arena = some (some [])) :
    (run env w stored).items = [] ∧
    (run env w stored).calls = [Call.arena] ∧
    (run env w stored).processedBlockIds = loadProcessedBlockIds stored ∧
    (∀ l, stored = some l → l.length ≤ MAX_PROCESSED_IDS →
      (run env w stored).processedBlockIds = l) ∧
    (∀ l, stored = some l → l.length > MAX_PROCESSED_IDS →
      (run env w stored).processedBlockIds = l.drop (l.length - MAX_PROCESSED_IDS)) := by
  rw [run_of_selected_none env w stored (selected_of_no_contents w stored h),
    getArenaBlocks_calls]
  refine ⟨rfl, rfl, rfl, ?_, ?_⟩
  · intro l hl hlen
    rw [hl]
    exact loadProcessedBlockIds_of_le l hlen
  · intro l hl _
    rw [hl]
    exact loadProcessedBlockIds_some l

/-- C13 at a failing Are.na request on the store `["1", "2"]`. -/
theorem run_without_blocks_witness :
    downWorld.arena = none ∧
    (run emptyEnv downWorld (some [js "1", js "2"])).items = [] ∧
    (run emptyEnv downWorld (some [js "1", js "2"])).calls = [Call.arena] ∧
    (run emptyEnv downWorld (some [js "1", js "2"])).processedBlockIds = [js "1", js "2"] :=
  ⟨rfl, (run_without_blocks emptyEnv downWorld (some [js "1", js "2"]) (Or.inl rfl)).1,
    (run_without_blocks emptyEnv downWorld (some [js "1", js "2"]) (Or.inl rfl)).2.1,
    (run_without_blocks emptyEnv downWorld (some [js "1", js "2"]) (Or.inl rfl)).2.2.2.1
      [js "1", js "2"] rfl (by decide)⟩

/-- C13 fails as stated: the list of 201 ids that the 201 runs of `manyWorlds`
persisted is cut to its last 200 ids by a run whose Are.na request fails, so
the list after that run is not the list before it. -/
theorem feed_failure_trims_store :
    runs emptyEnv manyWorlds (some []) = some manyIds ∧
    downWorld.arena = none ∧
    (run emptyEnv downWorld (some manyIds)).items = [] ∧
    (run emptyEnv downWorld (some manyIds)).processedBlockIds = manyIds.drop 1 ∧
    (run emptyEnv downWorld (some manyIds)).processedBlockIds ≠ manyIds := by
  have hne : manyIds ≠ [] := by
    intro h
    have := length_manyIds
    rw [h] at this
    exact absurd this (by decide)
  have hruns : runs emptyEnv manyWorlds (some []) = some manyIds := by
    rw [runs_from_empty emptyEnv manyWorlds manyIds hne (selectedIds_manyWorlds emptyEnv),
      length_manyIds]
    rfl
  have hmax : MAX_PROCESSED_IDS = 200 := rfl
  have hload : loadProcessedBlockIds (some manyIds) = manyIds.drop 1 := by
    rw [loadProcessedBlockIds_some manyIds, length_manyIds, hmax]
  rw [run_of_selected_none emptyEnv downWorld (some manyIds)
    (selected_of_no_contents downWorld _ (Or.inl rfl)), hload]
  refine ⟨hruns, rfl, rfl, rfl, ?_⟩
  intro h
  have hlen := congrArg List.length h
  rw [List.length_drop, length_manyIds] at hlen
  exact absurd hlen (by decide)

/-! ## Title and link -/

theorem linkInText_of_link (env : Env) (w : World) (block : Block) (url : JsString)
    (hcls : block.cls = some (js "Link")) (hurl : block.sourceUrl = some url) :
    (describe env w block).1.linkInText = url := by
  by_cases hkey : truthy env.SCREENSHOT_API_KEY = true
  · by_cases hshot : truthy (takeScreenshot env w url).1 = true
    · cases hs : (takeScreenshot env w url).1 with
      | none => rw [hs] at hshot; exact absurd hshot (by decide)
      | some s =>
        have hne : s ≠ js "" := by
          rw [hs] at hshot
          simpa [truthy] using hshot
        rw [describe_link_shot env w block url s hcls hurl hkey hs hne]
    · rw [describe_link_no_shot env w block url hcls hurl hkey (by simpa using hshot)]
  · rw [describe_link_no_key env w block url hcls hurl (by simpa using hkey)]

theorem linkInText_of_not_link (env : Env) (w : World) (block : Block)
    (h : ¬ (block.cls = some (js "Link") ∧ ∃ url, block.sourceUrl = some url)) :
    (describe env w block).1.linkInText = arenaBlockUrl block := by
  unfold describe
  split
  · rfl
  · split
    · rename_i url hlink hsrc
      exact absurd ⟨by simpa using hlink, url, hsrc⟩ h
    · split <;> rfl

theorem titlePrefix_blockTitle_of_title (block : Block) (t : JsString)
    (htitle : block.title = some t) (hne : t ≠ js "") :
    titlePrefix (blockTitle block) = t ++ js ": " := by
  unfold titlePrefix blockTitle
  rw [htitle, orElse_of_ne t _ hne]
  simp [hne]

/-- C14: for a selected block with a non-empty title the untruncated tweet
text is title, `: `, description, a blank and the link, where the link is the
source url for a block of class Link that has one and the permalink
`https://www.are.na/block/<id>` for every other block. -/
theorem untruncated_text_with_title (env : Env) (w : World) (block : Block) (t : JsString)
    (htitle : block.title = some t) (hne : t ≠ js "") :
    untruncatedText (titlePrefix (blockTitle block)) (describe env w block).1.aiDescription
        (describe env w block).1.linkInText
      = t ++ js ": " ++ (describe env w block).1.aiDescription ++ js " "
          ++ (describe env w block).1.linkInText ∧
    (∀ url, block.cls = some (js "Link") → block.sourceUrl = some url →
      (describe env w block).1.linkInText = url) ∧
    (¬ (block.cls = some (js "Link") ∧ ∃ url, block.sourceUrl = some url) →
      (describe env w block).1.linkInText = js "https://www.are.na/block/" ++ block.id.String) ∧
    (∀ stored, selected w stored = some block →
      ∃ media, (run env w stored).items
        = [⟨tweetText (t ++ js ": ") (describe env w block).1.aiDescription
              (describe env w block).1.linkInText, media⟩]) := by
  have hp := titlePrefix_blockTitle_of_title block t htitle hne
  refine ⟨by rw [hp]; rfl, fun url hcls hurl => linkInText_of_link env w block url hcls hurl,
    fun h => linkInText_of_not_link env w block h, ?_⟩
  intro stored hsel
  rw [run_of_selected_some env w stored block hsel, hp]
  exact ⟨_, rfl⟩

/-- C14 at the link block and the image block of the example feed. -/
theorem untruncated_text_with_title_witness :
    untruncatedText (titlePrefix (blockTitle linkBlock))
        (describe emptyEnv (exampleWorld (js "a car")) linkBlock).1.aiDescription
        (describe emptyEnv (exampleWorld (js "a car")) linkBlock).1.linkInText
      = js "A page: Web Link http://x" ∧
    (describe emptyEnv (exampleWorld (js "a car")) linkBlock).1.linkInText = js "http://x" ∧
    (describe emptyEnv (exampleWorld (js "a car")) imageBlock).1.linkInText
      = js "https://www.are.na/block/2" :=
  ⟨(untruncated_text_with_title emptyEnv (exampleWorld (js "a car")) linkBlock (js "A page") rfl
      (by decide)).1.trans (by decide),
    (untruncated_text_with_title emptyEnv (exampleWorld (js "a car")) linkBlock (js "A page") rfl
      (by decide)).2.1 (js "http://x") rfl rfl,
    (untruncated_text_with_title emptyEnv (exampleWorld (js "a car")) imageBlock (js "A car") rfl
      (by decide)).2.2.1 (fun h => absurd h.1 (by decide))⟩

theorem blockTitle_of_no_title (block : Block)
    (h : block.title = none ∨ block.title = some (js "")) :
    blockTitle block = js "Are.na Discovery" := by
  unfold blockTitle
  exact orElse_of_falsy _ _ h

theorem blockTitle_ne_empty (block : Block) : blockTitle block ≠ js "" := by
  unfold blockTitle orElse
  cases block.title with
  | none => decide
  | some s =>
    by_cases h : s = js ""
    · simp only [h, bne_self_eq_false, Bool.false_eq_true, if_false]
      decide
    · simp [h]

theorem titlePrefix_of_ne (t : JsString) (h : t ≠ js "") : titlePrefix t = t ++ js ": " := by
  unfold titlePrefix
  simp [h]

/-- C15, as the code has it: for a selected block whose title is absent or
empty the block title defaults to `Are.na Discovery`, so the title prefix is
`Are.na Discovery: ` and the untruncated tweet text is that prefix, the
description, a blank and the link; the title prefix of a block is never the
empty string. -/
theorem untruncated_text_without_title (env : Env) (w : World) (block : Block)
    (h : block.title = none ∨ block.title = some (js "")) :
    titlePrefix (blockTitle block) = js "Are.na Discovery: " ∧
    untruncatedText (titlePrefix (blockTitle block)) (describe env w block).1.aiDescription
        (describe env w block).1.linkInText
      = js "Are.na Discovery: " ++ (describe env w block).1.aiDescription ++ js " "
          ++ (describe env w block).1.linkInText ∧
    (∀ b : Block, titlePrefix (blockTitle b) ≠ js "") ∧
    (∀ stored, selected w stored = some block →
      ∃ media, (run env w stored).items
        = [⟨tweetText (js "Are.na Discovery: ") (describe env w block).1.aiDescription
              (describe env w block).1.linkInText, media⟩]) := by
  have hp : titlePrefix (blockTitle block) = js "Are.na Discovery: " := by
    rw [blockTitle_of_no_title block h]
    rfl
  refine ⟨hp, by rw [hp]; rfl, ?_, ?_⟩
  · intro b hb
    rw [titlePrefix_of_ne _ (blockTitle_ne_empty b)] at hb
    have hlen := congrArg JsString.length hb
    rw [JsString.length_append] at hlen
    have h2 : ((js ": ") : JsString).length = 2 := rfl
    have h0 : ((js "") : JsString).length = 0 := rfl
    omega
  · intro stored hsel
    rw [run_of_selected_some env w stored block hsel, hp]
    exact ⟨_, rfl⟩

/-- C15 at the text block of the example feed, which has no title. -/
theorem untruncated_text_without_title_witness :
    untitledBlock.title = none ∧
    titlePrefix (blockTitle untitledBlock) = js "Are.na Discovery: " ∧
    untruncatedText (titlePrefix (blockTitle untitledBlock))
        (describe emptyEnv (exampleWorld (js "a car")) untitledBlock).1.aiDescription
        (describe emptyEnv (exampleWorld (js "a car")) untitledBlock).1.linkInText
      = js "Are.na Discovery: hello https://www.are.na/block/1" :=
  ⟨rfl,
    (untruncated_text_without_title emptyEnv (exampleWorld (js "a car")) untitledBlock
      (Or.inl rfl)).1,
    (untruncated_text_without_title emptyEnv (exampleWorld (js "a car")) untitledBlock
      (Or.inl rfl)).2.1.trans (by decide)⟩

/-- C15 fails as stated: the text block of the example feed has no title, and
its title prefix is `Are.na Discovery: `, not the empty string; the run that
selects it returns a text that starts with that prefix. -/
theorem title_prefix_not_empty :
    untitledBlock.title = none ∧
    selected (exampleWorld (js "a car")) (some []) = some untitledBlock ∧
    titlePrefix (blockTitle untitledBlock) = js "Are.na Discovery: " ∧
    titlePrefix (blockTitle untitledBlock) ≠ js "" ∧
    (describe emptyEnv (exampleWorld (js "a car")) untitledBlock).1.aiDescription = js "hello" ∧
    (describe emptyEnv (exampleWorld (js "a car")) untitledBlock).1.linkInText
      = js "https://www.are.na/block/1" ∧
    (run emptyEnv (exampleWorld (js "a car")) (some [])).items
      = [⟨js "Are.na Discovery: hello https://www.are.na/block/1", none⟩] ∧
    untruncatedText (titlePrefix (blockTitle untitledBlock))
        (describe emptyEnv (exampleWorld (js "a car")) untitledBlock).1.aiDescription
        (describe emptyEnv (exampleWorld (js "a car")) untitledBlock).1.linkInText
      ≠ (describe emptyEnv (exampleWorld (js "a car")) untitledBlock).1.aiDescription ++ js " "
          ++ (describe emptyEnv (exampleWorld (js "a car")) untitledBlock).1.linkInText := by
  decide

/-! ## What a run does to the processed ids -/

theorem append_singleton_ne_self (l : List JsString) (i : JsString) : l ++ [i] ≠ l := by
  intro h
  have hlen := congrArg List.length h
  rw [List.length_append, List.length_singleton] at hlen
  omega

/-- C16: started on a stored list `L` of at most 200 ids, a run persists
either `L` itself, exactly when it returns the empty result, or `L` followed
by the single id `String(id)` of the selected block, exactly when it returns
one record; the ids of `L` stay in place and the new id is last. -/
theorem run_adds_at_most_one_id (env : Env) (w : World) (L : List JsString)
    (hL : L.length ≤ MAX_PROCESSED_IDS) :
    ((run env w (some L)).items = [] ∨ ∃ out, (run env w (some L)).items = [out]) ∧
    ((run env w (some L)).items = [] ↔ (run env w (some L)).processedBlockIds = L) ∧
    ((∃ out, (run env w (some L)).items = [out]) ↔
      ∃ b, selected w (some L) = some b ∧
        (run env w (some L)).processedBlockIds = L ++ [b.id.String]) ∧
    ((run env w (some L)).processedBlockIds = L ∨
      ∃ b, selected w (some L) = some b ∧
        (run env w (some L)).processedBlockIds = L ++ [b.id.String]) := by
  have hload := loadProcessedBlockIds_of_le L hL
  cases hsel : selected w (some L) with
  | none =>
    rw [run_of_selected_none env w (some L) hsel, hload]
    refine ⟨Or.inl rfl, ⟨fun _ => rfl, fun _ => rfl⟩, ⟨?_, ?_⟩, Or.inl rfl⟩
    · rintro ⟨out, hout⟩
      cases hout
    · rintro ⟨b, hb, _⟩
      cases hb
  | some b =>
    rw [run_of_selected_some env w (some L) b hsel, hload]
    refine ⟨Or.inr ⟨_, rfl⟩, ⟨?_, ?_⟩, ⟨fun _ => ⟨b, rfl, rfl⟩, fun _ => ⟨_, rfl⟩⟩,
      Or.inr ⟨b, rfl, rfl⟩⟩
    · intro h
      cases h
    · intro h
      exact absurd h (append_singleton_ne_self L _)

/-- C16 at the example feed on the stores `["1"]` and `["1", "2", "3"]`. -/
theorem run_adds_at_most_one_id_witness :
    ((run emptyEnv (exampleWorld (js "a car")) (some [js "1", js "2", js "3"])).items = [] ↔
      (run emptyEnv (exampleWorld (js "a car")) (some [js "1", js "2", js "3"])).processedBlockIds
        = [js "1", js "2", js "3"]) ∧
    (run emptyEnv (exampleWorld (js "a car")) (some [js "1", js "2", js "3"])).items = [] ∧
    (run emptyEnv (exampleWorld (js "a car")) (some [js "1"])).processedBlockIds = [js "1", js "2"] ∧
    ((run emptyEnv (exampleWorld (js "a car")) (some [js "1"])).items = [] ∨
      ∃ out, (run emptyEnv (exampleWorld (js "a car")) (some [js "1"])).items = [out]) :=
  ⟨(run_adds_at_most_one_id emptyEnv (exampleWorld (js "a car")) [js "1", js "2", js "3"] (by decide)).2.1,
    by decide, by decide,
    (run_adds_at_most_one_id emptyEnv (exampleWorld (js "a car")) [js "1"] (by decide)).1⟩

theorem nodup_loadProcessedBlockIds (stored : Option (List JsString))
    (h : (stored.getD []).Nodup) : (loadProcessedBlockIds stored).Nodup := by
  rw [loadProcessedBlockIds_eq_drop]
  exact h.sublist (List.drop_sublist _ _)

/-- C17: when the stored list has no duplicate id, the list persisted after
the run has none either, whatever the feed lists. -/
theorem run_keeps_ids_distinct (env : Env) (w : World) (stored : Option (List JsString))
    (hnodup : (stored.getD []).Nodup) :
    (run env w stored).processedBlockIds.Nodup := by
  have hload := nodup_loadProcessedBlockIds stored hnodup
  cases hsel : selected w stored with
  | none =>
    rw [run_of_selected_none env w stored hsel]
    exact hload
  | some b =>
    rw [run_of_selected_some env w stored b hsel]
    have hnot := selected_not_mem w stored b hsel
    show (loadProcessedBlockIds stored ++ [b.id.String]).Nodup
    rw [List.nodup_append]
    refine ⟨hload, List.nodup_singleton _, ?_⟩
    intro x hx hx'
    rw [List.mem_singleton] at hx'
    rw [hx'] at hx
    exact hnot hx

/-- C17 at a feed that lists the block with id 5 twice, on the store `["1"]`. -/
theorem run_keeps_ids_distinct_witness :
    (run emptyEnv repeatedFeedWorld (some [js "1"])).processedBlockIds = [js "1", js "5"] ∧
    (run emptyEnv repeatedFeedWorld (some [js "1"])).processedBlockIds.Nodup :=
  ⟨by decide, run_keeps_ids_distinct emptyEnv repeatedFeedWorld (some [js "1"]) (by decide)⟩

/-! ## The fallback branch -/

/-- C18: a selected block that matches none of the three typed branches, that
is a block of a class other than Image, Link and Text, a block of class Image
without an original image url, or a block of class Link without a source url,
gets the description `New content from Are.na.`, a null media url and the
permalink as link, and the run makes no screenshot or caption request. -/
theorem unmatched_block_fallback (env : Env) (w : World) (block : Block)
    (h : (block.cls ≠ some (js "Image") ∧ block.cls ≠ some (js "Link") ∧ block.cls ≠ some (js "Text")) ∨
      (block.cls = some (js "Image") ∧ block.imageOriginalUrl = none) ∨
      (block.cls = some (js "Link") ∧ block.sourceUrl = none)) :
    describe env w block
      = (⟨js "https://www.are.na/block/" ++ block.id.String, none, js "New content from Are.na."⟩,
          []) ∧
    (∀ stored, selected w stored = some block →
      (run env w stored).items
        = [⟨tweetText (titlePrefix (blockTitle block)) (js "New content from Are.na.")
              ((js "https://www.are.na/block/") ++ block.id.String), none⟩] ∧
      (run env w stored).calls = [Call.arena]) := by
  have hd : describe env w block
      = (⟨js "https://www.are.na/block/" ++ block.id.String, none, js "New content from Are.na."⟩,
          []) := by
    unfold describe
    split
    · rename_i url himage hurl
      have hcls : block.cls = some (js "Image") := by simpa using himage
      rcases h with h | h | h
      · exact absurd hcls h.1
      · rw [h.2] at hurl
        cases hurl
      · rw [h.1] at hcls
        exact absurd hcls (by decide)
    · split
      · rename_i url hlink hurl
        have hcls : block.cls = some (js "Link") := by simpa using hlink
        rcases h with h | h | h
        · exact absurd hcls h.2.1
        · rw [h.1] at hcls
          exact absurd hcls (by decide)
        · rw [h.2] at hurl
          cases hurl
      · split
        · rename_i htext
          have hcls : block.cls = some (js "Text") := by simpa using htext
          rcases h with h | h | h
          · exact absurd hcls h.2.2
          · rw [h.1] at hcls
            exact absurd hcls (by decide)
          · rw [h.1] at hcls
            exact absurd hcls (by decide)
        · rfl
  refine ⟨hd, ?_⟩
  intro stored hsel
  rw [run_of_selected_some env w stored block hsel, hd, getArenaBlocks_calls]
  exact ⟨rfl, rfl⟩

/-- C18 at a block of class Attachment, an image block without an image and a
link block without a source. -/
theorem unmatched_block_fallback_witness :
    describe screenshotEnv (screenshotWorld (js "a page")) (bareBlock (.num 9) (js "Attachment"))
      = (⟨js "https://www.are.na/block/9", none, js "New content from Are.na."⟩, []) ∧
    describe screenshotEnv (screenshotWorld (js "a page")) (bareBlock (.num 9) (js "Image"))
      = (⟨js "https://www.are.na/block/9", none, js "New content from Are.na."⟩, []) ∧
    describe screenshotEnv (screenshotWorld (js "a page")) (bareBlock (.num 9) (js "Link"))
      = (⟨js "https://www.are.na/block/9", none, js "New content from Are.na."⟩, []) :=
  ⟨(unmatched_block_fallback screenshotEnv (screenshotWorld (js "a page"))
      (bareBlock (.num 9) (js "Attachment")) (Or.inl (by decide))).1,
    (unmatched_block_fallback screenshotEnv (screenshotWorld (js "a page"))
      (bareBlock (.num 9) (js "Image")) (Or.inr (Or.inl ⟨rfl, rfl⟩))).1,
    (unmatched_block_fallback screenshotEnv (screenshotWorld (js "a page"))
      (bareBlock (.num 9) (js "Link")) (Or.inr (Or.inr ⟨rfl, rfl⟩))).1⟩

/-! ## Truncation and the link -/

theorem length_title300 : title300.length = 300 := by
  show (List.replicate 300 97).length = 300
  exact List.length_replicate 300 97

theorem substring0_append_of_le (s t : JsString) (n : Nat) (h : n ≤ s.length) :
    substring0 (s ++ t) n = substring0 s n := by
  unfold substring0
  rw [JsString.units_append, List.take_append_of_le_length h]

theorem tweetText_of_long_title (p d l : JsString) (h : 280 < p.length) :
    tweetText p d l = substring0 p 277 ++ js "..." := by
  have hlong : (untruncatedText p d l).length > 280 := by
    unfold untruncatedText
    simp only [JsString.length_append]
    omega
  rw [tweetText_of_long p d l hlong]
  unfold untruncatedText
  rw [JsString.append_assoc, JsString.append_assoc, substring0_append_of_le p _ 277 (by omega)]

theorem not_mem_truncated_title300 : 104 ∉ (substring0 title300 277 ++ js "...").units := by
  rw [JsString.units_append]
  intro hmem
  rcases List.mem_append.mp hmem with h | h
  · have h' : 104 ∈ List.replicate 300 97 := List.mem_of_mem_take h
    exact absurd (List.eq_of_mem_replicate h') (by decide)
  · revert h
    decide

/-- C19: truncation can remove the link. The block `longTitleBlock` has a
title of 300 characters; the run that selects it returns the first 277
characters of the title followed by `...`, a text of 280 characters in which
the link of the block, `https://www.are.na/block/7`, does not occur. -/
theorem truncation_removes_link :
    selected longTitleWorld none = some longTitleBlock ∧
    (describe emptyEnv longTitleWorld longTitleBlock).1.linkInText
      = js "https://www.are.na/block/7" ∧
    (run emptyEnv longTitleWorld none).items = [⟨substring0 title300 277 ++ js "...", none⟩] ∧
    (substring0 title300 277 ++ js "...").length = 280 ∧
    ¬ ((js "https://www.are.na/block/7").units <:+: (substring0 title300 277 ++ js "...").units) ∧
    ∃ (w : World) (block : Block) (out : Output),
      selected w none = some block ∧ (run emptyEnv w none).items = [out] ∧
      ¬ ((describe emptyEnv w block).1.linkInText.units <:+: out.tweet_text.units) := by
  have hsel : selected longTitleWorld none = some longTitleBlock := by
    unfold selected
    rw [newBlockToProcess_eq_some_iff]
    exact ⟨by decide, [], [], rfl, fun x hx => by cases hx⟩
  have hlink : (describe emptyEnv longTitleWorld longTitleBlock).1.linkInText
      = js "https://www.are.na/block/7" := by decide
  have hprefix : titlePrefix (blockTitle longTitleBlock) = title300 ++ js ": " :=
    titlePrefix_blockTitle_of_title longTitleBlock title300 rfl
      (ne_empty_of_length_pos title300 (by rw [length_title300]; decide))
  have hitems : (run emptyEnv longTitleWorld none).items
      = [⟨substring0 title300 277 ++ js "...", none⟩] := by
    rw [run_of_selected_some emptyEnv longTitleWorld none longTitleBlock hsel,
      describe_text emptyEnv longTitleWorld longTitleBlock rfl, hprefix]
    show [(⟨tweetText (title300 ++ js ": ") _ _, none⟩ : Output)] = _
    rw [tweetText_of_long_title _ _ _
        (by rw [JsString.length_append, length_title300]; decide),
      substring0_append_of_le title300 _ 277 (by rw [length_title300]; decide)]
  have hlen : (substring0 title300 277 ++ js "...").length = 280 := by
    rw [length_append_dots,
      length_substring0_of_le title300 277 (by rw [length_title300]; decide)]
  have hnot : ¬ ((js "https://www.are.na/block/7").units
      <:+: (substring0 title300 277 ++ js "...").units) := by
    intro hin
    exact not_mem_truncated_title300 (hin.subset (by decide))
  refine ⟨hsel, hlink, hitems, hlen, hnot, longTitleWorld, longTitleBlock, _, hsel, hitems, ?_⟩
  rw [hlink]
  exact hnot

end BodyshopFM
